import Mathlib

/-!
# SPH fluid solver: kernels and per-particle solver steps

A shallow embedding of `src/fluidSolver/SPHKernels.h` and of the per-particle
methods of `src/fluidSolver/SPHSolver.cpp`.

Arithmetic is exact: the C++ `float`/`double` values are read as elements of a
linearly ordered field `K` (rounding and the `float`/`double` conversions are
not modelled; the literals `0.01f`, `0.2`, `45.0f`, ... are the decimal numbers
they denote).  Two library items that the sources only use are parameters,
bundled in `CMath`: the constant `M_PI` of `<cmath>` and the square root
behind `glm::distance`.  A division whose divisor the C++ does not guard is a
checked division: it yields a `Fault` when the divisor is zero.  The loops are
those of the sequential branch (without `USE_TBB`); the two `parallel_reduce`
calls of the `USE_TBB` branch are modelled next to them, over an arbitrary
splitting of the range.  Particle pointers are addresses of type `Nat` into a heap
of particle objects.
-/

namespace SPH

/-! ## Vectors (`glm::vec3`) -/

/-- Three-component vector, the `glm::vec3` of the sources. -/
@[ext]
structure Vec3 (K : Type) where
  x : K
  y : K
  z : K
deriving DecidableEq, Repr

namespace Vec3

variable {K : Type}

/-- Constructor `glm::vec3(c)`: all three components equal to `c`. -/
def splat (c : K) : Vec3 K := ⟨c, c, c⟩

instance [Zero K] : Zero (Vec3 K) := ⟨splat 0⟩

instance [Add K] : Add (Vec3 K) := ⟨fun a b => ⟨a.x + b.x, a.y + b.y, a.z + b.z⟩⟩

instance [Sub K] : Sub (Vec3 K) := ⟨fun a b => ⟨a.x - b.x, a.y - b.y, a.z - b.z⟩⟩

instance [Neg K] : Neg (Vec3 K) := ⟨fun a => ⟨-a.x, -a.y, -a.z⟩⟩

/-- Product `c * v` of a scalar and a vector. -/
def smul [Mul K] (c : K) (v : Vec3 K) : Vec3 K := ⟨c * v.x, c * v.y, c * v.z⟩

/-- Product `v * c` of a vector and a scalar. -/
def muls [Mul K] (v : Vec3 K) (c : K) : Vec3 K := ⟨v.x * c, v.y * c, v.z * c⟩

/-- Quotient `v / c` of a vector by a scalar. -/
def divs [Div K] (v : Vec3 K) (c : K) : Vec3 K := ⟨v.x / c, v.y / c, v.z / c⟩

/-- Inner product `glm::dot`. -/
def dot [Add K] [Mul K] (a b : Vec3 K) : K := a.x * b.x + a.y * b.y + a.z * b.z

end Vec3

/-! ## Library parameters and faults -/

/-- The two items of the C and glm libraries the sources rely on: the constant
`M_PI`, of which only positivity is assumed, and the square-root function used
by `glm::length`, of which nothing is assumed. -/
structure CMath (K : Type) [LT K] [Zero K] where
  M_PI : K
  M_PI_pos : 0 < M_PI
  sqrt : K → K

/-- Unguarded divisions of the sources whose divisor can vanish. -/
inductive Fault where
  /-- Divisor `M_PI * pow(h, 6)` of `LaplacianKernelViscous` is zero. -/
  | kernelDivisor
  /-- Divisor built from a particle density is zero. -/
  | densityDivisor
deriving DecidableEq, Repr

/-- Checked division: `a / b`, or the fault `f` when `b = 0`. -/
def checkedDiv {K : Type} [Field K] [DecidableEq K] (f : Fault) (a b : K) : Except Fault K :=
  if b = 0 then Except.error f else Except.ok (a / b)

/-- Function `glm::distance(p0, p1)`: `length(p1 - p0)`, the square root of the
inner product of the difference with itself. -/
def distance {K : Type} [LinearOrderedField K] (m : CMath K) (p0 p1 : Vec3 K) : K :=
  m.sqrt (Vec3.dot (p1 - p0) (p1 - p0))

/-! ## Kernels (`SPHKernels.h`) -/

section Kernels

variable {K : Type} [LinearOrderedField K]

/-- Density kernel `KernelPoly6(x, h)`. -/
def KernelPoly6 (m : CMath K) (x h : K) : K :=
  if x < 0 ∨ x > h then 0
  else if h ≤ 0 then 0
  else
    let result := (315 * (h * h - x * x) ^ 3) / (64 * m.M_PI * h ^ 9)
    if result < 0 then 0 else result

/-- Pressure kernel `KernelSpiky(x, h)`. -/
def KernelSpiky (m : CMath K) (x h : K) : K :=
  if x < 0 ∨ x > h then 0
  else if h ≤ 0 then 0
  else
    let result := (15 * (h - x) ^ 3) / (m.M_PI * h ^ 6)
    if result < 0 then 0 else result

/-- Gradient of the pressure kernel `GradKernelSpiky(x_vec, x, h)`. -/
def GradKernelSpiky (m : CMath K) (x_vec : Vec3 K) (x h : K) : Vec3 K :=
  if x ≤ 0 ∨ x > h then Vec3.splat 0
  else if h ≤ 0 then Vec3.splat 0
  else
    let scalarPart := -45 * (h - x) * (h - x) / (m.M_PI * h ^ 6)
    Vec3.divs (Vec3.smul scalarPart x_vec) x

/-- Laplacian of the viscosity kernel `LaplacianKernelViscous(x, h)`: a single
unguarded quotient. -/
def LaplacianKernelViscous (m : CMath K) (x h : K) : Except Fault K :=
  checkedDiv Fault.kernelDivisor (45 * (h - x)) (m.M_PI * h ^ 6)

/-- Viscosity kernel `KernelViscous(x, h)`. -/
def KernelViscous (m : CMath K) (x h : K) : K :=
  if x ≤ 0 ∨ x > h then 0
  else if h ≤ 0 then 0
  else
    (15 * (-(x ^ 3 / (2 * h ^ 3)) + x ^ 2 / h ^ 2 + h / (2 * x) - 1)) / (2 * m.M_PI * h ^ 3)

end Kernels

/-! ## Particles and solver state -/

/-- Modelled from the spec: the class `FluidParticle`, whose declaration is not
among the sources.  Its fields are the ones the solver reads and writes:
position, velocity, density, pressure, the two force accumulators, the array
`neighbors` of particle pointers and `neighborsCount`.  A particle pointer is
an address of type `Nat`. -/
structure FluidParticle (K : Type) where
  position : Vec3 K
  velocity : Vec3 K
  density : K
  pressure : K
  pressureForce : Vec3 K
  viscosityForce : Vec3 K
  neighbors : List Nat
  neighborsCount : Nat

/-- Modelled from the spec: the state of the base class `FluidSolver`, whose
declaration is not among the sources: the particle objects (`heap`, addressed by
pointer), the vector `m_particles` of pointers, the container dimensions and
bounds, and the static `FluidParticle::mass` shared by all particles. -/
structure FluidSolver (K : Type) where
  heap : Nat → FluidParticle K
  m_particles : List Nat
  m_containerDim : Vec3 K
  m_minBoundary : Vec3 K
  m_maxBoundary : Vec3 K
  mass : K

/-- Modelled from the spec: the class `SPHGrid`, whose declaration is not among
the sources; only the arguments its constructor receives are recorded. -/
structure SPHGrid (K : Type) where
  particles : List Nat
  minBound : Vec3 K
  maxBound : Vec3 K
  cellSize : K
  flag : Bool

/-- State of `SPHSolver`: the base state and the members set by its
constructor. -/
structure SPHSolver (K : Type) extends FluidSolver K where
  m_grid : SPHGrid K
  m_stiffness : K
  m_viscosity : K
  m_restDensity : K
  m_kernelRadius : K

/-- Tags of `SPHSolver::SetConstant`. -/
inductive SPHConstantType where
  | SPHStiffness
  | SPHViscosity
  | SPHRestDensity
  | SPHMass
deriving DecidableEq, Repr

section Solver

variable {K : Type} [LinearOrderedField K]

/-- Store `p` at the address `particle`. -/
def SPHSolver.setParticle (s : SPHSolver K) (particle : Nat) (p : FluidParticle K) :
    SPHSolver K :=
  { s with heap := Function.update s.heap particle p }

/-- The entries `neighbors[0 .. neighborsCount)` the loops iterate over. -/
def FluidParticle.neighborRange (p : FluidParticle K) : List Nat :=
  p.neighbors.take p.neighborsCount

/-- Constructor `SPHSolver::SPHSolver`, on the state `base` left by the base-class
constructor. -/
def SPHSolver.create (base : FluidSolver K) (cellSize stiffness viscosity restDensity : K) :
    SPHSolver K :=
  { base with
    m_grid := ⟨base.m_particles, -base.m_containerDim, base.m_containerDim, cellSize, true⟩
    m_stiffness := stiffness
    m_viscosity := viscosity
    m_restDensity := restDensity
    m_kernelRadius := cellSize * 2 }

/-- Method `SPHSolver::SetConstant`. -/
def SetConstant (s : SPHSolver K) (type : SPHConstantType) (value : K) : SPHSolver K :=
  match type with
  | .SPHStiffness => { s with m_stiffness := value }
  | .SPHViscosity => { s with m_viscosity := value }
  | .SPHRestDensity => { s with m_restDensity := value }
  | .SPHMass => { s with mass := value }

/-- Loop of `SPHSolver::CalculateDensity` (sequential branch): `density += tempDensity`
over the neighbor pointers, starting from `density`. -/
def densityLoop (m : CMath K) (s : SPHSolver K) (p : FluidParticle K) :
    List Nat → K → K
  | [], density => density
  | neighbor :: rest, density =>
    let tempDensity :=
      KernelPoly6 m (distance m (s.heap neighbor).position p.position) s.m_kernelRadius
    densityLoop m s p rest (density + tempDensity)

/-- Method `SPHSolver::CalculateDensity`. -/
def CalculateDensity (m : CMath K) (s : SPHSolver K) (particle : Nat) : SPHSolver K :=
  let p := s.heap particle
  let density := densityLoop m s p p.neighborRange 0
  let density := s.mass * density
  s.setParticle particle { p with density := density }

/-- Method `SPHSolver::CalculatePressure`. -/
def CalculatePressure (s : SPHSolver K) (particle : Nat) : SPHSolver K :=
  let p := s.heap particle
  let pressure := s.m_stiffness * (p.density - s.m_restDensity)
  s.setParticle particle { p with pressure := pressure }

/-- One iteration of the loop of `CalculatePressureForceField`: the summand
`tempPressureForce * kernelGrad` for the neighbor pointer `neighbor`. -/
def pressureTerm (m : CMath K) (s : SPHSolver K) (p : FluidParticle K)
    (particleDensitySquared : K) (neighbor : Nat) : Except Fault (Vec3 K) :=
  let n := s.heap neighbor
  let r := p.position - n.position
  let x := distance m n.position p.position
  let kernelGrad := GradKernelSpiky m r x s.m_kernelRadius
  let neighborDensitySquared := n.density * n.density
  match checkedDiv Fault.densityDivisor p.pressure particleDensitySquared with
  | .error f => .error f
  | .ok a =>
    match checkedDiv Fault.densityDivisor n.pressure neighborDensitySquared with
    | .error f => .error f
    | .ok b =>
      let tempPressureForce := a + b
      .ok (Vec3.smul tempPressureForce kernelGrad)

/-- Loop of `CalculatePressureForceField` (sequential branch):
`pressureGrad += tempPressureForce * kernelGrad` over the neighbor pointers. -/
def pressureLoop (m : CMath K) (s : SPHSolver K) (p : FluidParticle K)
    (particleDensitySquared : K) : List Nat → Vec3 K → Except Fault (Vec3 K)
  | [], pressureGrad => .ok pressureGrad
  | neighbor :: rest, pressureGrad =>
    match pressureTerm m s p particleDensitySquared neighbor with
    | .error f => .error f
    | .ok t => pressureLoop m s p particleDensitySquared rest (pressureGrad + t)

/-- The vector `CalculatePressureForceField` passes to `SetPressureForce`. -/
def pressureForceOf (m : CMath K) (s : SPHSolver K) (particle : Nat) : Except Fault (Vec3 K) :=
  let p := s.heap particle
  let particleDensitySquared := p.density * p.density
  match pressureLoop m s p particleDensitySquared p.neighborRange (Vec3.splat 0) with
  | .error f => .error f
  | .ok pressureGrad => .ok (Vec3.muls (Vec3.muls (-pressureGrad) s.mass) s.mass)

/-- Method `SPHSolver::CalculatePressureForceField`. -/
def CalculatePressureForceField (m : CMath K) (s : SPHSolver K) (particle : Nat) :
    Except Fault (SPHSolver K) :=
  match pressureForceOf m s particle with
  | .error f => .error f
  | .ok pressureGrad =>
    .ok (s.setParticle particle { s.heap particle with pressureForce := pressureGrad })

/-- One iteration of the loop of `CalculateViscosityForceField`: the summand
`tempVisForce` for the neighbor pointer `neighbor`. -/
def viscosityTerm (m : CMath K) (s : SPHSolver K) (p : FluidParticle K) (neighbor : Nat) :
    Except Fault (Vec3 K) :=
  let n := s.heap neighbor
  match LaplacianKernelViscous m (distance m p.position n.position) s.m_kernelRadius with
  | .error f => .error f
  | .ok laplacianKernelViscous =>
    if n.density = 0 then .error Fault.densityDivisor
    else .ok (Vec3.divs (Vec3.muls (n.velocity - p.velocity) laplacianKernelViscous) n.density)

/-- Loop of `CalculateViscosityForceField`: `viscosityForce += tempVisForce` over
the neighbor pointers. -/
def viscosityLoop (m : CMath K) (s : SPHSolver K) (p : FluidParticle K) :
    List Nat → Vec3 K → Except Fault (Vec3 K)
  | [], viscosityForce => .ok viscosityForce
  | neighbor :: rest, viscosityForce =>
    match viscosityTerm m s p neighbor with
    | .error f => .error f
    | .ok tempVisForce => viscosityLoop m s p rest (viscosityForce + tempVisForce)

/-- The vector `CalculateViscosityForceField` passes to `SetViscosityForce`. -/
def viscosityForceOf (m : CMath K) (s : SPHSolver K) (particle : Nat) : Except Fault (Vec3 K) :=
  let p := s.heap particle
  match viscosityLoop m s p p.neighborRange (Vec3.splat 0) with
  | .error f => .error f
  | .ok viscosityForce =>
    .ok (Vec3.muls (Vec3.muls (Vec3.muls (Vec3.muls viscosityForce s.mass) s.mass)
      s.m_viscosity) 0.01)

/-- Method `SPHSolver::CalculateViscosityForceField`. -/
def CalculateViscosityForceField (m : CMath K) (s : SPHSolver K) (particle : Nat) :
    Except Fault (SPHSolver K) :=
  match viscosityForceOf m s particle with
  | .error f => .error f
  | .ok viscosityForce =>
    .ok (s.setParticle particle { s.heap particle with viscosityForce := viscosityForce })

/-- Boundary check of `SPHSolver::UpdateDynamics`: the statements between
`particle->Update(deltaT)` and the two setters, on the particle `p` the
integrator left. -/
def clampReflect (s : SPHSolver K) (p : FluidParticle K) : FluidParticle K :=
  let newPosition := p.position
  let newVel := p.velocity
  let (newPosition, newVel) :=
    if p.position.x < s.m_minBoundary.x + 0.01 then
      ({ newPosition with x := s.m_minBoundary.x + 0.01 }, { newVel with x := -newVel.x * 0.2 })
    else if p.position.x > s.m_maxBoundary.x - 0.01 then
      ({ newPosition with x := s.m_maxBoundary.x - 0.01 }, { newVel with x := -newVel.x * 0.2 })
    else (newPosition, newVel)
  let (newPosition, newVel) :=
    if p.position.y < s.m_minBoundary.y + 0.01 then
      ({ newPosition with y := s.m_minBoundary.y + 0.01 }, { newVel with y := -newVel.y * 0.2 })
    else if p.position.y > s.m_maxBoundary.y - 0.01 then
      ({ newPosition with y := s.m_maxBoundary.y - 0.01 }, { newVel with y := -newVel.y * 0.2 })
    else (newPosition, newVel)
  let (newPosition, newVel) :=
    if p.position.z < s.m_minBoundary.z + 0.01 then
      ({ newPosition with z := s.m_minBoundary.z + 0.01 }, { newVel with z := -newVel.z * 0.2 })
    else if p.position.z > s.m_maxBoundary.z - 0.01 then
      ({ newPosition with z := s.m_maxBoundary.z - 0.01 }, { newVel with z := -newVel.z * 0.2 })
    else (newPosition, newVel)
  { p with position := newPosition, velocity := newVel }

/-- Method `SPHSolver::UpdateDynamics`.  The integrator `FluidParticle::Update` is
not among the sources and is the parameter `Update`: it maps the time step and
the particle to the particle it leaves. -/
def UpdateDynamics (Update : K → FluidParticle K → FluidParticle K) (s : SPHSolver K)
    (particle : Nat) (deltaT : K) : SPHSolver K :=
  let p := Update deltaT (s.heap particle)
  s.setParticle particle (clampReflect s p)

/-- Second loop of `SPHSolver::Update` (sequential branch): `CalculateDensity` then
`CalculatePressure` for every particle of `m_particles`, in order. -/
def densityPressurePhase (m : CMath K) (s : SPHSolver K) : SPHSolver K :=
  s.m_particles.foldl (fun s p => CalculatePressure (CalculateDensity m s p) p) s

end Solver

/-! ## Box collision and the `USE_TBB` reductions -/

section SolverMore

variable {K : Type} [LinearOrderedField K]

/-- Sum of a list of vectors, used to state sums over neighbors. -/
def Vec3.sum (l : List (Vec3 K)) : Vec3 K :=
  l.foldr (fun v acc => v + acc) 0

/-- Body of the loop of `SPHSolver::CheckBoxIntersection` for one particle pointer.
The method `Box::Intersect` is not among the sources and is the parameter
`Intersect`: it maps the position to the returned position, the out-parameter
`newVel` and the out-parameter `intersected`. -/
def checkBoxParticle (Intersect : Vec3 K → Vec3 K × Vec3 K × Bool) (s : SPHSolver K)
    (particle : Nat) : SPHSolver K :=
  let p := s.heap particle
  let (newPos, newVel, intersected) := Intersect p.position
  if intersected then
    s.setParticle particle
      { p with position := newPos, velocity := p.velocity + Vec3.smul 2 newVel }
  else s

/-- Method `SPHSolver::CheckBoxIntersection`: the body for every pointer of
`m_particles`, in order. -/
def CheckBoxIntersection (Intersect : Vec3 K → Vec3 K × Vec3 K × Bool) (s : SPHSolver K) :
    SPHSolver K :=
  s.m_particles.foldl (checkBoxParticle Intersect) s

/-- A way `tbb::parallel_reduce` splits a range into blocks: `leaf` is one block,
on which the body runs from the identity; `node k left right` cuts the range after
its first `k` entries, reduces the two parts by `left` and `right`, and joins the
two results.  (A body continuing from the result of the block before it is the
same as one block covering both.) -/
inductive Split where
  | leaf
  | node (k : Nat) (left right : Split)
deriving Repr

/-- Reduction `parallel_reduce` of `CalculateDensity` (`USE_TBB` branch): the body
adds the kernel values of its block to `0.f`, the join is `x + y`. -/
def reduceDensity (m : CMath K) (s : SPHSolver K) (p : FluidParticle K) :
    Split → List Nat → K
  | .leaf, range => densityLoop m s p range 0
  | .node k left right, range =>
    reduceDensity m s p left (range.take k) + reduceDensity m s p right (range.drop k)

/-- Method `SPHSolver::CalculateDensity`, `USE_TBB` branch, for the splitting
`split` of the neighbor range. -/
def CalculateDensityTBB (m : CMath K) (split : Split) (s : SPHSolver K) (particle : Nat) :
    SPHSolver K :=
  let p := s.heap particle
  let density := reduceDensity m s p split p.neighborRange
  let density := s.mass * density
  s.setParticle particle { p with density := density }

/-- Reduction `parallel_reduce` of `CalculatePressureForceField` (`USE_TBB` branch):
the body adds the summands of its block to `glm::vec3(0.0)`, the join is `x + y`. -/
def reducePressure (m : CMath K) (s : SPHSolver K) (p : FluidParticle K)
    (particleDensitySquared : K) : Split → List Nat → Except Fault (Vec3 K)
  | .leaf, range => pressureLoop m s p particleDensitySquared range (Vec3.splat 0)
  | .node k left right, range =>
    match reducePressure m s p particleDensitySquared left (range.take k) with
    | .error f => .error f
    | .ok x =>
      match reducePressure m s p particleDensitySquared right (range.drop k) with
      | .error f => .error f
      | .ok y => .ok (x + y)

/-- Method `SPHSolver::CalculatePressureForceField`, `USE_TBB` branch, for the
splitting `split` of the neighbor range. -/
def CalculatePressureForceFieldTBB (m : CMath K) (split : Split) (s : SPHSolver K)
    (particle : Nat) : Except Fault (SPHSolver K) :=
  let p := s.heap particle
  let particleDensitySquared := p.density * p.density
  match reducePressure m s p particleDensitySquared split p.neighborRange with
  | .error f => .error f
  | .ok pressureGrad =>
    .ok (s.setParticle particle
      { p with pressureForce := Vec3.muls (Vec3.muls (-pressureGrad) s.mass) s.mass })

/-- The tunable that the tag `type` of `SetConstant` names. -/
def SPHSolver.constant (s : SPHSolver K) (type : SPHConstantType) : K :=
  match type with
  | .SPHStiffness => s.m_stiffness
  | .SPHViscosity => s.m_viscosity
  | .SPHRestDensity => s.m_restDensity
  | .SPHMass => s.mass

end SolverMore

/-! ## Concrete inputs -/

/-- The value of the `double` constant `M_PI`, as an exact rational. -/
def M_PI_double : ℚ := 884279719003555 / 281474976710656

/-- Square root on the rationals, exact on the squares of `0, 1, ..., 5` (the
only arguments at which the concrete evaluations below use it). -/
def sqrtSmall (q : ℚ) : ℚ :=
  if q = 1 then 1 else if q = 4 then 2 else if q = 9 then 3
  else if q = 16 then 4 else if q = 25 then 5 else 0

/-- Concrete library instance over the rationals. -/
def cmathQ : CMath ℚ := ⟨M_PI_double, by unfold M_PI_double; norm_num, sqrtSmall⟩

/-- Container with `m_minBoundary = m_maxBoundary = 0` holding one particle at the
origin with velocity `(1, 0, 0)`. -/
def flatContainer : SPHSolver ℚ :=
  { heap := fun _ => ⟨0, ⟨1, 0, 0⟩, 0, 0, 0, 0, [], 0⟩
    m_particles := [0]
    m_containerDim := 0
    m_minBoundary := 0
    m_maxBoundary := 0
    mass := 1
    m_grid := ⟨[0], 0, 0, 1, true⟩
    m_stiffness := 1
    m_viscosity := 1
    m_restDensity := 1
    m_kernelRadius := 2 }

/-- Container `[-1, 1]^3` with one particle at `(-2, 0, 2)` moving with velocity
`(-5, 0, 3)`. -/
def unitContainer : SPHSolver ℚ :=
  { heap := fun _ => ⟨⟨-2, 0, 2⟩, ⟨-5, 0, 3⟩, 0, 0, 0, 0, [], 0⟩
    m_particles := [0]
    m_containerDim := ⟨1, 1, 1⟩
    m_minBoundary := ⟨-1, -1, -1⟩
    m_maxBoundary := ⟨1, 1, 1⟩
    mass := 1
    m_grid := ⟨[0], ⟨-1, -1, -1⟩, ⟨1, 1, 1⟩, 1, true⟩
    m_stiffness := 1
    m_viscosity := 1
    m_restDensity := 1
    m_kernelRadius := 2 }

/-- Two particles one unit apart, `0` at the origin and `1` at `(1, 0, 0)`, each
with the neighbor array `[0, 1]`, both of density `density`, with pressures
`pressure0` and `pressure1`, in a solver with smoothing radius 2, stiffness 1, rest
density 0 and shared mass `mass`. -/
def pairState (mass density pressure0 pressure1 : ℚ) : SPHSolver ℚ :=
  { heap := fun i =>
      if i = 0 then ⟨⟨0, 0, 0⟩, 0, density, pressure0, 0, 0, [0, 1], 2⟩
      else ⟨⟨1, 0, 0⟩, 0, density, pressure1, 0, 0, [0, 1], 2⟩
    m_particles := [0, 1]
    m_containerDim := ⟨4, 4, 4⟩
    m_minBoundary := ⟨-4, -4, -4⟩
    m_maxBoundary := ⟨4, 4, 4⟩
    mass := mass
    m_grid := ⟨[0, 1], ⟨-4, -4, -4⟩, ⟨4, 4, 4⟩, 1, true⟩
    m_stiffness := 1
    m_viscosity := 1
    m_restDensity := 0
    m_kernelRadius := 2 }

/-- Two particles three units apart, farther than the smoothing radius 2: `0` at
the origin, at rest, with the neighbor array `neighbors0`, and `1` at `(3, 0, 0)`
with velocity `(1, 0, 0)` and density `density1`; particle `0` has density 1. -/
def farState (neighbors0 : List Nat) (density1 : ℚ) : SPHSolver ℚ :=
  { heap := fun i =>
      if i = 0 then ⟨⟨0, 0, 0⟩, 0, 1, 1, 0, 0, neighbors0, neighbors0.length⟩
      else ⟨⟨3, 0, 0⟩, ⟨1, 0, 0⟩, density1, 1, 0, 0, [], 0⟩
    m_particles := [0, 1]
    m_containerDim := ⟨4, 4, 4⟩
    m_minBoundary := ⟨-4, -4, -4⟩
    m_maxBoundary := ⟨4, 4, 4⟩
    mass := 1
    m_grid := ⟨[0, 1], ⟨-4, -4, -4⟩, ⟨4, 4, 4⟩, 1, true⟩
    m_stiffness := 1
    m_viscosity := 1
    m_restDensity := 0
    m_kernelRadius := 2 }

/-! ## Vector algebra -/

section VecLemmas

variable {K : Type} [LinearOrderedField K]

@[simp] theorem Vec3.add_x (a b : Vec3 K) : (a + b).x = a.x + b.x := rfl
@[simp] theorem Vec3.add_y (a b : Vec3 K) : (a + b).y = a.y + b.y := rfl
@[simp] theorem Vec3.add_z (a b : Vec3 K) : (a + b).z = a.z + b.z := rfl
@[simp] theorem Vec3.sub_x (a b : Vec3 K) : (a - b).x = a.x - b.x := rfl
@[simp] theorem Vec3.sub_y (a b : Vec3 K) : (a - b).y = a.y - b.y := rfl
@[simp] theorem Vec3.sub_z (a b : Vec3 K) : (a - b).z = a.z - b.z := rfl
@[simp] theorem Vec3.neg_x (a : Vec3 K) : (-a).x = -a.x := rfl
@[simp] theorem Vec3.neg_y (a : Vec3 K) : (-a).y = -a.y := rfl
@[simp] theorem Vec3.neg_z (a : Vec3 K) : (-a).z = -a.z := rfl
@[simp] theorem Vec3.zero_x : (0 : Vec3 K).x = 0 := rfl
@[simp] theorem Vec3.zero_y : (0 : Vec3 K).y = 0 := rfl
@[simp] theorem Vec3.zero_z : (0 : Vec3 K).z = 0 := rfl
@[simp] theorem Vec3.splat_zero_x : (Vec3.splat 0 : Vec3 K).x = 0 := rfl
@[simp] theorem Vec3.splat_zero_y : (Vec3.splat 0 : Vec3 K).y = 0 := rfl
@[simp] theorem Vec3.splat_zero_z : (Vec3.splat 0 : Vec3 K).z = 0 := rfl
@[simp] theorem Vec3.smul_x (c : K) (a : Vec3 K) : (Vec3.smul c a).x = c * a.x := rfl
@[simp] theorem Vec3.smul_y (c : K) (a : Vec3 K) : (Vec3.smul c a).y = c * a.y := rfl
@[simp] theorem Vec3.smul_z (c : K) (a : Vec3 K) : (Vec3.smul c a).z = c * a.z := rfl
@[simp] theorem Vec3.muls_x (a : Vec3 K) (c : K) : (Vec3.muls a c).x = a.x * c := rfl
@[simp] theorem Vec3.muls_y (a : Vec3 K) (c : K) : (Vec3.muls a c).y = a.y * c := rfl
@[simp] theorem Vec3.muls_z (a : Vec3 K) (c : K) : (Vec3.muls a c).z = a.z * c := rfl
@[simp] theorem Vec3.divs_x (a : Vec3 K) (c : K) : (Vec3.divs a c).x = a.x / c := rfl
@[simp] theorem Vec3.divs_y (a : Vec3 K) (c : K) : (Vec3.divs a c).y = a.y / c := rfl
@[simp] theorem Vec3.divs_z (a : Vec3 K) (c : K) : (Vec3.divs a c).z = a.z / c := rfl

theorem Vec3.splat_zero : (Vec3.splat 0 : Vec3 K) = 0 := rfl

theorem Vec3.add_zero_right (a : Vec3 K) : a + 0 = a := by
  ext <;> simp

theorem Vec3.add_zero_left (a : Vec3 K) : 0 + a = a := by
  ext <;> simp

theorem Vec3.smul_zero_right (c : K) : Vec3.smul c (0 : Vec3 K) = 0 := by
  ext <;> simp

/-- The distance does not depend on the order of its two points. -/
theorem distance_comm (m : CMath K) (p q : Vec3 K) : distance m p q = distance m q p := by
  unfold distance
  congr 1
  simp only [Vec3.dot, Vec3.sub_x, Vec3.sub_y, Vec3.sub_z]
  ring

end VecLemmas

/-! ## Kernel facts -/

section KernelLemmas

variable {K : Type} [LinearOrderedField K]

theorem KernelPoly6_outside (m : CMath K) (x h : K) (hx : x < 0 ∨ x > h ∨ h ≤ 0) :
    KernelPoly6 m x h = 0 := by
  unfold KernelPoly6
  split_ifs with h1 h2 <;> first | rfl | (exfalso; tauto)

theorem KernelSpiky_outside (m : CMath K) (x h : K) (hx : x < 0 ∨ x > h ∨ h ≤ 0) :
    KernelSpiky m x h = 0 := by
  unfold KernelSpiky
  split_ifs with h1 h2 <;> first | rfl | (exfalso; tauto)

theorem GradKernelSpiky_outside (m : CMath K) (r : Vec3 K) (x h : K)
    (hx : x ≤ 0 ∨ x > h ∨ h ≤ 0) : GradKernelSpiky m r x h = 0 := by
  unfold GradKernelSpiky
  split_ifs with h1 h2 <;> first | rfl | (exfalso; tauto)

theorem KernelViscous_outside (m : CMath K) (x h : K) (hx : x ≤ 0 ∨ x > h ∨ h ≤ 0) :
    KernelViscous m x h = 0 := by
  unfold KernelViscous
  split_ifs with h1 h2 <;> first | rfl | (exfalso; tauto)

theorem GradKernelSpiky_inside (m : CMath K) (r : Vec3 K) (x h : K) (hx : 0 < x) (hxh : x ≤ h) :
    GradKernelSpiky m r x h
      = Vec3.divs (Vec3.smul (-45 * (h - x) * (h - x) / (m.M_PI * h ^ 6)) r) x := by
  unfold GradKernelSpiky
  have h1 : ¬ (x ≤ 0 ∨ x > h) := by
    rintro (h | h)
    · exact absurd hx (not_lt.mpr h)
    · exact absurd h (not_lt.mpr hxh)
  have h2 : ¬ h ≤ 0 := not_le.mpr (lt_of_lt_of_le hx hxh)
  rw [if_neg h1, if_neg h2]

/-- The gradient kernel is odd in its vector argument. -/
theorem GradKernelSpiky_neg (m : CMath K) (r : Vec3 K) (x h : K) :
    GradKernelSpiky m (-r) x h = -GradKernelSpiky m r x h := by
  unfold GradKernelSpiky
  split_ifs <;> ext <;> simp <;> ring

/-- The gradient kernel vanishes at the zero displacement, whatever the distance. -/
theorem GradKernelSpiky_zero_vec (m : CMath K) (x h : K) :
    GradKernelSpiky m (0 : Vec3 K) x h = 0 := by
  unfold GradKernelSpiky
  split_ifs <;> ext <;> simp

end KernelLemmas

/-! ## Claims on the kernels -/

section KernelClaims

variable {K : Type} [LinearOrderedField K]

/-- C1: at distance `x = 2` and smoothing radius `h = 1`, outside the support,
`LaplacianKernelViscous` returns `-45 / M_PI`, which is not zero; the other four
kernels do return zero there. -/
theorem laplacianKernelViscous_nonzero_outside_support :
    LaplacianKernelViscous cmathQ 2 1 = Except.ok (-45 / M_PI_double)
      ∧ LaplacianKernelViscous cmathQ 2 1 ≠ Except.ok 0
      ∧ KernelPoly6 cmathQ 2 1 = 0 ∧ KernelSpiky cmathQ 2 1 = 0
      ∧ GradKernelSpiky cmathQ ⟨2, 0, 0⟩ 2 1 = 0 ∧ KernelViscous cmathQ 2 1 = 0 := by
  refine ⟨?_, ?_, ?_, ?_, ?_, ?_⟩
  · norm_num [LaplacianKernelViscous, checkedDiv, cmathQ, M_PI_double]
  · norm_num [LaplacianKernelViscous, checkedDiv, cmathQ, M_PI_double]
  · exact KernelPoly6_outside _ _ _ (by norm_num)
  · exact KernelSpiky_outside _ _ _ (by norm_num)
  · exact GradKernelSpiky_outside _ _ _ _ (by norm_num)
  · exact KernelViscous_outside _ _ _ (by norm_num)

/-- C7 (as stated, refuted): at `x = 0` with `h = 1` the code does not return 0;
`KernelSpiky` returns `15 / M_PI` there, its guard being `x < 0`, not `x <= 0`. -/
theorem kernelSpiky_at_zero_nonzero :
    KernelSpiky cmathQ 0 1 = 15 / M_PI_double ∧ KernelSpiky cmathQ 0 1 ≠ 0 := by
  constructor <;> norm_num [KernelSpiky, cmathQ, M_PI_double]

/-- C7 (amended): `KernelSpiky(x, h)` equals `15 (h - x)^3 / (pi h^6)` for every
`h > 0` and `0 <= x <= h`, the point `x = 0` included, and is 0 for every `x`
outside the support. -/
theorem kernelSpiky_spec (m : CMath K) (x h : K) :
    (0 < h → 0 ≤ x → x ≤ h → KernelSpiky m x h = 15 * (h - x) ^ 3 / (m.M_PI * h ^ 6))
      ∧ (x < 0 ∨ x > h → KernelSpiky m x h = 0) := by
  refine ⟨fun hh hx hxh => ?_, fun hout => ?_⟩
  · have hden : 0 < m.M_PI * h ^ 6 := mul_pos m.M_PI_pos (pow_pos hh 6)
    have hnum : 0 ≤ 15 * (h - x) ^ 3 :=
      mul_nonneg (by norm_num) (pow_nonneg (sub_nonneg.mpr hxh) 3)
    have hres : ¬ (15 * (h - x) ^ 3 / (m.M_PI * h ^ 6) < 0) :=
      not_lt.mpr (div_nonneg hnum hden.le)
    have h1 : ¬ (x < 0 ∨ x > h) := by
      rintro (h | h)
      · exact absurd hx (not_le.mpr h)
      · exact absurd h (not_lt.mpr hxh)
    simp only [KernelSpiky, if_neg h1, if_neg (not_le.mpr hh), if_neg hres]
  · exact KernelSpiky_outside m x h (by tauto)

/-- Instance of `kernelSpiky_spec` at `x = 1`, `h = 2` (inside) and `x = 3`, `h = 2`
(outside). -/
theorem kernelSpiky_spec_witness :
    KernelSpiky cmathQ 1 2 = 15 * (2 - 1) ^ 3 / (cmathQ.M_PI * 2 ^ 6)
      ∧ KernelSpiky cmathQ 3 2 = 0 :=
  ⟨(kernelSpiky_spec cmathQ 1 2).1 (by norm_num) (by norm_num) (by norm_num),
   (kernelSpiky_spec cmathQ 3 2).2 (Or.inr (by norm_num))⟩

/-- C8: `KernelPoly6(x, h)` equals `315 (h^2 - x^2)^3 / (64 pi h^9)` for every
`h > 0` and `0 <= x <= h`, is 0 for every other `(x, h)`, and is never negative. -/
theorem kernelPoly6_spec (m : CMath K) (x h : K) :
    (0 < h → 0 ≤ x → x ≤ h →
        KernelPoly6 m x h = 315 * (h ^ 2 - x ^ 2) ^ 3 / (64 * m.M_PI * h ^ 9))
      ∧ (¬ (0 < h ∧ 0 ≤ x ∧ x ≤ h) → KernelPoly6 m x h = 0)
      ∧ 0 ≤ KernelPoly6 m x h := by
  refine ⟨fun hh hx hxh => ?_, fun hout => ?_, ?_⟩
  · have hden : 0 < 64 * m.M_PI * h ^ 9 :=
      mul_pos (mul_pos (by norm_num) m.M_PI_pos) (pow_pos hh 9)
    have hsq : 0 ≤ h * h - x * x := by nlinarith
    have hnum : 0 ≤ 315 * (h * h - x * x) ^ 3 := mul_nonneg (by norm_num) (pow_nonneg hsq 3)
    have hres : ¬ (315 * (h * h - x * x) ^ 3 / (64 * m.M_PI * h ^ 9) < 0) :=
      not_lt.mpr (div_nonneg hnum hden.le)
    have h1 : ¬ (x < 0 ∨ x > h) := by
      rintro (h | h)
      · exact absurd hx (not_le.mpr h)
      · exact absurd h (not_lt.mpr hxh)
    simp only [KernelPoly6, if_neg h1, if_neg (not_le.mpr hh), if_neg hres]
    rw [pow_two, pow_two]
  · apply KernelPoly6_outside
    by_contra hcon
    push_neg at hcon
    exact hout ⟨hcon.2.2, hcon.1, hcon.2.1⟩
  · unfold KernelPoly6
    split_ifs with h1 h2
    · exact le_refl 0
    · exact le_refl 0
    · simp only
      split_ifs with h3
      · exact le_refl 0
      · exact not_lt.mp h3

/-- Instance of `kernelPoly6_spec` at `x = 1`, `h = 2` (inside) and at `x = 3`,
`h = 2` (outside). -/
theorem kernelPoly6_spec_witness :
    KernelPoly6 cmathQ 1 2 = 315 * (2 ^ 2 - 1 ^ 2) ^ 3 / (64 * cmathQ.M_PI * 2 ^ 9)
      ∧ KernelPoly6 cmathQ 3 2 = 0 :=
  ⟨(kernelPoly6_spec cmathQ 1 2).1 (by norm_num) (by norm_num) (by norm_num),
   (kernelPoly6_spec cmathQ 3 2).2.1 (by norm_num)⟩

/-- C9: `GradKernelSpiky(r, x, h)` equals `(-45 (h - x)^2 / (pi h^6)) * (r / x)` for
every `h > 0`, `0 < x <= h` and vector `r`, is the zero vector whenever `x <= 0`
or `x > h`, and is odd in `r` for fixed `x` and `h`. -/
theorem gradKernelSpiky_spec (m : CMath K) (r : Vec3 K) (x h : K) :
    (0 < h → 0 < x → x ≤ h →
        GradKernelSpiky m r x h
          = Vec3.smul (-45 * (h - x) ^ 2 / (m.M_PI * h ^ 6)) (Vec3.divs r x))
      ∧ (x ≤ 0 ∨ x > h → GradKernelSpiky m r x h = 0)
      ∧ GradKernelSpiky m (-r) x h = -GradKernelSpiky m r x h := by
  refine ⟨fun _ hx hxh => ?_, fun hout => ?_, GradKernelSpiky_neg m r x h⟩
  · rw [GradKernelSpiky_inside m r x h hx hxh]
    ext <;> simp <;> ring
  · exact GradKernelSpiky_outside m r x h (by tauto)

/-- Instance of `gradKernelSpiky_spec` at `r = (1, 0, 0)`, `x = 1`, `h = 2` (inside)
and at `x = 3`, `h = 2` (outside). -/
theorem gradKernelSpiky_spec_witness :
    GradKernelSpiky cmathQ ⟨1, 0, 0⟩ 1 2
        = Vec3.smul (-45 * (2 - 1) ^ 2 / (cmathQ.M_PI * 2 ^ 6)) (Vec3.divs ⟨1, 0, 0⟩ 1)
      ∧ GradKernelSpiky cmathQ ⟨1, 0, 0⟩ 3 2 = 0 :=
  ⟨(gradKernelSpiky_spec cmathQ ⟨1, 0, 0⟩ 1 2).1 (by norm_num) (by norm_num) (by norm_num),
   (gradKernelSpiky_spec cmathQ ⟨1, 0, 0⟩ 3 2).2.1 (Or.inr (by norm_num))⟩

/-- C13: `LaplacianKernelViscous(x, h)` is `45 (h - x) / (pi h^6)` for every `x` and
every `h` other than 0, with no guard and no clamp: for `h > 0` the value is
non-negative exactly when `x <= h`, and negative for every `x > h`. -/
theorem laplacianKernelViscous_spec (m : CMath K) (x h : K) :
    (h ≠ 0 → LaplacianKernelViscous m x h = .ok (45 * (h - x) / (m.M_PI * h ^ 6)))
      ∧ (0 < h → ∃ v, LaplacianKernelViscous m x h = .ok v
          ∧ (0 ≤ v ↔ x ≤ h) ∧ (x > h → v < 0)) := by
  have hval : h ≠ 0 → LaplacianKernelViscous m x h = .ok (45 * (h - x) / (m.M_PI * h ^ 6)) := by
    intro hh
    have hden : m.M_PI * h ^ 6 ≠ 0 := mul_ne_zero (ne_of_gt m.M_PI_pos) (pow_ne_zero 6 hh)
    simp only [LaplacianKernelViscous, checkedDiv, if_neg hden]
  refine ⟨hval, fun hh => ⟨_, hval (ne_of_gt hh), ?_, ?_⟩⟩
  · have hden : 0 < m.M_PI * h ^ 6 := mul_pos m.M_PI_pos (pow_pos hh 6)
    rw [le_div_iff₀ hden, zero_mul]
    constructor
    · intro hnum
      by_contra hxh
      have : 45 * (h - x) < 0 := mul_neg_of_pos_of_neg (by norm_num) (sub_neg.mpr (not_le.mp hxh))
      exact absurd hnum (not_le.mpr this)
    · intro hxh
      exact mul_nonneg (by norm_num) (sub_nonneg.mpr hxh)
  · intro hxh
    have hden : 0 < m.M_PI * h ^ 6 := mul_pos m.M_PI_pos (pow_pos hh 6)
    exact div_neg_of_neg_of_pos (mul_neg_of_pos_of_neg (by norm_num) (sub_neg.mpr hxh)) hden

/-- Instance of `laplacianKernelViscous_spec` at `x = 3`, `h = 2`. -/
theorem laplacianKernelViscous_spec_witness :
    LaplacianKernelViscous cmathQ 3 2 = .ok (45 * (2 - 3) / (cmathQ.M_PI * 2 ^ 6))
      ∧ ∃ v, LaplacianKernelViscous cmathQ 3 2 = .ok v ∧ (0 ≤ v ↔ (3 : ℚ) ≤ 2)
          ∧ ((3 : ℚ) > 2 → v < 0) :=
  ⟨(laplacianKernelViscous_spec cmathQ 3 2).1 (by norm_num),
   (laplacianKernelViscous_spec cmathQ 3 2).2 (by norm_num)⟩

end KernelClaims

/-! ## Solver facts -/

@[simp] theorem setParticle_heap_same {K : Type} (s : SPHSolver K) (i : Nat)
    (p : FluidParticle K) : (s.setParticle i p).heap i = p := by
  simp [SPHSolver.setParticle]

theorem setParticle_heap_other {K : Type} (s : SPHSolver K) (i j : Nat) (p : FluidParticle K)
    (h : j ≠ i) : (s.setParticle i p).heap j = s.heap j := by
  simp [SPHSolver.setParticle, Function.update_noteq h]

@[simp] theorem setParticle_mass {K : Type} (s : SPHSolver K) (i : Nat) (p : FluidParticle K) :
    (s.setParticle i p).mass = s.mass := rfl

@[simp] theorem setParticle_kernelRadius {K : Type} (s : SPHSolver K) (i : Nat)
    (p : FluidParticle K) : (s.setParticle i p).m_kernelRadius = s.m_kernelRadius := rfl

section SolverLemmas

variable {K : Type} [LinearOrderedField K]

/-- The density loop adds to its start value the sum of the kernel values. -/
theorem densityLoop_eq_sum (m : CMath K) (s : SPHSolver K) (p : FluidParticle K)
    (l : List Nat) (acc : K) :
    densityLoop m s p l acc
      = acc + (l.map fun n =>
          KernelPoly6 m (distance m (s.heap n).position p.position) s.m_kernelRadius).sum := by
  induction l generalizing acc with
  | nil => simp [densityLoop]
  | cons n rest ih =>
    simp only [densityLoop, List.map_cons, List.sum_cons]
    rw [ih]
    ring

/-- The density loop reads only the position of the particle, the heap positions
and the kernel radius. -/
theorem densityLoop_congr (m : CMath K) (s t : SPHSolver K) (p q : FluidParticle K)
    (l : List Nat) (acc : K) (hq : q.position = p.position)
    (hpos : ∀ n, (t.heap n).position = (s.heap n).position)
    (hr : t.m_kernelRadius = s.m_kernelRadius) :
    densityLoop m t q l acc = densityLoop m s p l acc := by
  induction l generalizing acc with
  | nil => rfl
  | cons n rest ih => simp only [densityLoop, hpos, hr, hq, ih]

theorem clampReflect_x_min (s : SPHSolver K) (p : FluidParticle K)
    (h : p.position.x < s.m_minBoundary.x + 0.01) :
    (clampReflect s p).position.x = s.m_minBoundary.x + 0.01
      ∧ (clampReflect s p).velocity.x = -0.2 * p.velocity.x := by
  unfold clampReflect
  simp only [h, if_true]
  split_ifs <;> simp <;> ring

theorem clampReflect_x_max (s : SPHSolver K) (p : FluidParticle K)
    (h0 : ¬ p.position.x < s.m_minBoundary.x + 0.01)
    (h : p.position.x > s.m_maxBoundary.x - 0.01) :
    (clampReflect s p).position.x = s.m_maxBoundary.x - 0.01
      ∧ (clampReflect s p).velocity.x = -0.2 * p.velocity.x := by
  unfold clampReflect
  simp only [h0, h, if_true, if_false]
  split_ifs <;> simp <;> ring

theorem clampReflect_y_min (s : SPHSolver K) (p : FluidParticle K)
    (h : p.position.y < s.m_minBoundary.y + 0.01) :
    (clampReflect s p).position.y = s.m_minBoundary.y + 0.01
      ∧ (clampReflect s p).velocity.y = -0.2 * p.velocity.y := by
  unfold clampReflect
  simp only [h, if_true]
  split_ifs <;> simp <;> ring

theorem clampReflect_y_max (s : SPHSolver K) (p : FluidParticle K)
    (h0 : ¬ p.position.y < s.m_minBoundary.y + 0.01)
    (h : p.position.y > s.m_maxBoundary.y - 0.01) :
    (clampReflect s p).position.y = s.m_maxBoundary.y - 0.01
      ∧ (clampReflect s p).velocity.y = -0.2 * p.velocity.y := by
  unfold clampReflect
  simp only [h0, h, if_true, if_false]
  split_ifs <;> simp <;> ring

theorem clampReflect_z_min (s : SPHSolver K) (p : FluidParticle K)
    (h : p.position.z < s.m_minBoundary.z + 0.01) :
    (clampReflect s p).position.z = s.m_minBoundary.z + 0.01
      ∧ (clampReflect s p).velocity.z = -0.2 * p.velocity.z := by
  unfold clampReflect
  simp only [h, if_true]
  split_ifs <;> simp <;> ring

theorem clampReflect_z_max (s : SPHSolver K) (p : FluidParticle K)
    (h0 : ¬ p.position.z < s.m_minBoundary.z + 0.01)
    (h : p.position.z > s.m_maxBoundary.z - 0.01) :
    (clampReflect s p).position.z = s.m_maxBoundary.z - 0.01
      ∧ (clampReflect s p).velocity.z = -0.2 * p.velocity.z := by
  unfold clampReflect
  simp only [h0, h, if_true, if_false]
  split_ifs <;> simp <;> ring

theorem Vec3.sub_self_eq_zero (a : Vec3 K) : a - a = 0 := by
  ext <;> simp

/-- One iteration of the pressure loop reads only the position and pressure of the
particle, the positions, densities and pressures of the heap, and the kernel
radius. -/
theorem pressureTerm_congr (m : CMath K) (s t : SPHSolver K) (p q : FluidParticle K) (d : K)
    (n : Nat) (hqpos : q.position = p.position) (hqpre : q.pressure = p.pressure)
    (hpos : ∀ j, (t.heap j).position = (s.heap j).position)
    (hden : ∀ j, (t.heap j).density = (s.heap j).density)
    (hpre : ∀ j, (t.heap j).pressure = (s.heap j).pressure)
    (hr : t.m_kernelRadius = s.m_kernelRadius) :
    pressureTerm m t q d n = pressureTerm m s p d n := by
  simp only [pressureTerm, hpos, hden, hpre, hr, hqpos, hqpre]

theorem pressureLoop_congr (m : CMath K) (s t : SPHSolver K) (p q : FluidParticle K) (d : K)
    (l : List Nat) (acc : Vec3 K)
    (hqpos : q.position = p.position) (hqpre : q.pressure = p.pressure)
    (hpos : ∀ j, (t.heap j).position = (s.heap j).position)
    (hden : ∀ j, (t.heap j).density = (s.heap j).density)
    (hpre : ∀ j, (t.heap j).pressure = (s.heap j).pressure)
    (hr : t.m_kernelRadius = s.m_kernelRadius) :
    pressureLoop m t q d l acc = pressureLoop m s p d l acc := by
  induction l generalizing acc with
  | nil => rfl
  | cons n rest ih =>
    simp only [pressureLoop, pressureTerm_congr m s t p q d n hqpos hqpre hpos hden hpre hr]
    cases pressureTerm m s p d n with
    | error f => rfl
    | ok v => exact ih _

/-- The force vector of a particle is computed from its position, density,
pressure and neighbor range, the positions, densities and pressures of the heap,
the mass and the kernel radius. -/
theorem pressureForceOf_congr (m : CMath K) (s t : SPHSolver K) (particle : Nat)
    (hrange : (t.heap particle).neighborRange = (s.heap particle).neighborRange)
    (hpos : ∀ j, (t.heap j).position = (s.heap j).position)
    (hden : ∀ j, (t.heap j).density = (s.heap j).density)
    (hpre : ∀ j, (t.heap j).pressure = (s.heap j).pressure)
    (hr : t.m_kernelRadius = s.m_kernelRadius) (hmass : t.mass = s.mass) :
    pressureForceOf m t particle = pressureForceOf m s particle := by
  simp only [pressureForceOf, hrange, hden, hmass,
    pressureLoop_congr m s t (s.heap particle) (t.heap particle) _ _ _ (hpos particle)
      (hpre particle) hpos hden hpre hr]

/-- Storing a pressure force on some particle does not change the force vector
computed for any particle. -/
theorem pressureForceOf_setForce (m : CMath K) (s : SPHSolver K) (i j : Nat) (F : Vec3 K) :
    pressureForceOf m (s.setParticle i { s.heap i with pressureForce := F }) j
      = pressureForceOf m s j := by
  have hfield : ∀ k, ((s.setParticle i { s.heap i with pressureForce := F }).heap k).position
        = (s.heap k).position
      ∧ ((s.setParticle i { s.heap i with pressureForce := F }).heap k).density
        = (s.heap k).density
      ∧ ((s.setParticle i { s.heap i with pressureForce := F }).heap k).pressure
        = (s.heap k).pressure
      ∧ ((s.setParticle i { s.heap i with pressureForce := F }).heap k).neighborRange
        = (s.heap k).neighborRange := by
    intro k
    by_cases hk : k = i
    · subst hk
      rw [setParticle_heap_same]
      exact ⟨rfl, rfl, rfl, rfl⟩
    · rw [setParticle_heap_other s i k _ hk]
      exact ⟨rfl, rfl, rfl, rfl⟩
  exact pressureForceOf_congr m s _ j (hfield j).2.2.2 (fun k => (hfield k).1)
    (fun k => (hfield k).2.1) (fun k => (hfield k).2.2.1) rfl rfl

/-- With non-zero divisors, one iteration of the pressure loop yields its summand. -/
theorem pressureTerm_ok (m : CMath K) (s : SPHSolver K) (p : FluidParticle K) (n : Nat)
    (hp : p.density ≠ 0) (hn : (s.heap n).density ≠ 0) :
    pressureTerm m s p (p.density * p.density) n
      = .ok (Vec3.smul
          (p.pressure / (p.density * p.density)
            + (s.heap n).pressure / ((s.heap n).density * (s.heap n).density))
          (GradKernelSpiky m (p.position - (s.heap n).position)
            (distance m (s.heap n).position p.position) s.m_kernelRadius)) := by
  simp only [pressureTerm, checkedDiv, if_neg (mul_ne_zero hp hp), if_neg (mul_ne_zero hn hn)]

/-- A zero density of the particle or of the neighbor makes the iteration fault. -/
theorem pressureTerm_fault (m : CMath K) (s : SPHSolver K) (p : FluidParticle K) (n : Nat)
    (h0 : p.density = 0 ∨ (s.heap n).density = 0) :
    pressureTerm m s p (p.density * p.density) n = .error Fault.densityDivisor := by
  by_cases hp : p.density = 0
  · simp [pressureTerm, checkedDiv, hp]
  · have hn : (s.heap n).density = 0 := h0.resolve_left hp
    simp [pressureTerm, checkedDiv, hp, hn]

/-- A neighbor whose summand is the zero vector can be dropped from the loop. -/
theorem pressureLoop_skip (m : CMath K) (s : SPHSolver K) (p : FluidParticle K) (d : K)
    (n : Nat) (hn : pressureTerm m s p d n = .ok 0) (l₁ l₂ : List Nat) (acc : Vec3 K) :
    pressureLoop m s p d (l₁ ++ n :: l₂) acc = pressureLoop m s p d (l₁ ++ l₂) acc := by
  induction l₁ generalizing acc with
  | nil => simp only [List.nil_append, pressureLoop, hn, Vec3.add_zero_right]
  | cons j rest ih =>
    simp only [List.cons_append, pressureLoop]
    cases pressureTerm m s p d j with
    | error f => rfl
    | ok v => exact ih _

/-- The loop of a particle `self` whose neighbors are itself and one occurrence of
`other`: with non-zero densities the result is the start value plus the summand of
`other`. -/
theorem pressureLoop_pair (m : CMath K) (s : SPHSolver K) (self other : Nat)
    (hne : self ≠ other) (hs : (s.heap self).density ≠ 0) (ho : (s.heap other).density ≠ 0)
    (l : List Nat) (hl : ∀ j ∈ l, j = self ∨ j = other) (acc : Vec3 K) :
    (l.count other = 0 →
        pressureLoop m s (s.heap self) ((s.heap self).density * (s.heap self).density) l acc
          = .ok acc)
      ∧ (l.count other = 1 →
        pressureLoop m s (s.heap self) ((s.heap self).density * (s.heap self).density) l acc
          = .ok (acc + Vec3.smul
              ((s.heap self).pressure / ((s.heap self).density * (s.heap self).density)
                + (s.heap other).pressure / ((s.heap other).density * (s.heap other).density))
              (GradKernelSpiky m ((s.heap self).position - (s.heap other).position)
                (distance m (s.heap other).position (s.heap self).position)
                s.m_kernelRadius))) := by
  induction l generalizing acc with
  | nil =>
    refine ⟨fun _ => rfl, fun h => ?_⟩
    simp at h
  | cons j rest ih =>
    have hrest : ∀ j ∈ rest, j = self ∨ j = other := fun k hk => hl k (List.mem_cons_of_mem j hk)
    rcases hl j (List.mem_cons_self j rest) with hj | hj
    · subst hj
      have hterm := pressureTerm_ok m s (s.heap j) j hs hs
      rw [Vec3.sub_self_eq_zero, GradKernelSpiky_zero_vec, Vec3.smul_zero_right] at hterm
      have hcount : (j :: rest).count other = rest.count other :=
        List.count_cons_of_ne (Ne.symm hne) rest
      simp only [pressureLoop, hterm, Vec3.add_zero_right, hcount]
      exact ih hrest acc
    · subst hj
      have hterm := pressureTerm_ok m s (s.heap self) j hs ho
      have hcount : (j :: rest).count j = rest.count j + 1 := List.count_cons_self j rest
      simp only [pressureLoop, hterm, hcount]
      refine ⟨fun h => absurd h (Nat.succ_ne_zero _), fun h => ?_⟩
      exact (ih hrest _).1 (Nat.succ.inj h)

/-- The pressure force of a particle `self` whose neighbors are itself and one
occurrence of `other`, both of non-zero density. -/
theorem pressureForceOf_pair (m : CMath K) (s : SPHSolver K) (self other : Nat)
    (hne : self ≠ other) (hs : (s.heap self).density ≠ 0) (ho : (s.heap other).density ≠ 0)
    (hl : ∀ j ∈ (s.heap self).neighborRange, j = self ∨ j = other)
    (hc : (s.heap self).neighborRange.count other = 1) :
    pressureForceOf m s self
      = .ok (Vec3.muls (Vec3.muls (-(Vec3.smul
          ((s.heap self).pressure / ((s.heap self).density * (s.heap self).density)
            + (s.heap other).pressure / ((s.heap other).density * (s.heap other).density))
          (GradKernelSpiky m ((s.heap self).position - (s.heap other).position)
            (distance m (s.heap other).position (s.heap self).position)
            s.m_kernelRadius))) s.mass) s.mass) := by
  have h := (pressureLoop_pair m s self other hne hs ho _ hl (Vec3.splat 0)).2 hc
  rw [Vec3.splat_zero, Vec3.add_zero_left] at h
  simp only [pressureForceOf, Vec3.splat_zero, h]

/-- When the force vector is computed, `CalculatePressureForceField` stores it. -/
theorem CalculatePressureForceField_of_ok (m : CMath K) (s : SPHSolver K) (particle : Nat)
    (F : Vec3 K) (h : pressureForceOf m s particle = .ok F) :
    CalculatePressureForceField m s particle
      = .ok (s.setParticle particle { s.heap particle with pressureForce := F }) := by
  simp only [CalculatePressureForceField, h]

/-- With non-zero densities of the particle and of all listed neighbors, the
pressure loop does not fault. -/
theorem pressureLoop_ok (m : CMath K) (s : SPHSolver K) (p : FluidParticle K)
    (hp : p.density ≠ 0) (l : List Nat) (hl : ∀ n ∈ l, (s.heap n).density ≠ 0) (acc : Vec3 K) :
    ∃ v, pressureLoop m s p (p.density * p.density) l acc = .ok v := by
  induction l generalizing acc with
  | nil => exact ⟨acc, rfl⟩
  | cons n rest ih =>
    simp only [pressureLoop, pressureTerm_ok m s p n hp (hl n (List.mem_cons_self n rest))]
    exact ih (fun k hk => hl k (List.mem_cons_of_mem n hk)) _

/-- The force `CalculatePressureForceField` stores on the particle is the vector
`pressureForceOf`. -/
theorem CalculatePressureForceField_stored (m : CMath K) (s : SPHSolver K) (particle : Nat) :
    (CalculatePressureForceField m s particle).map (fun t => (t.heap particle).pressureForce)
      = pressureForceOf m s particle := by
  unfold CalculatePressureForceField
  cases pressureForceOf m s particle with
  | error f => rfl
  | ok F => simp only [Except.map, setParticle_heap_same]

/-- A neighbor farther away than the kernel radius contributes the zero vector to
the pressure loop, when the two divisions are defined. -/
theorem pressureTerm_far (m : CMath K) (s : SPHSolver K) (p : FluidParticle K) (n : Nat)
    (hp : p.density ≠ 0) (hn : (s.heap n).density ≠ 0)
    (hfar : distance m (s.heap n).position p.position > s.m_kernelRadius) :
    pressureTerm m s p (p.density * p.density) n = .ok 0 := by
  rw [pressureTerm_ok m s p n hp hn, GradKernelSpiky_outside m _ _ _ (Or.inr (Or.inl hfar)),
    Vec3.smul_zero_right]

theorem clampReflect_x_in (s : SPHSolver K) (p : FluidParticle K)
    (h0 : ¬ p.position.x < s.m_minBoundary.x + 0.01)
    (h1 : ¬ p.position.x > s.m_maxBoundary.x - 0.01) :
    (clampReflect s p).position.x = p.position.x
      ∧ (clampReflect s p).velocity.x = p.velocity.x := by
  unfold clampReflect
  simp only [h0, h1, if_false]
  split_ifs <;> simp

theorem clampReflect_y_in (s : SPHSolver K) (p : FluidParticle K)
    (h0 : ¬ p.position.y < s.m_minBoundary.y + 0.01)
    (h1 : ¬ p.position.y > s.m_maxBoundary.y - 0.01) :
    (clampReflect s p).position.y = p.position.y
      ∧ (clampReflect s p).velocity.y = p.velocity.y := by
  unfold clampReflect
  simp only [h0, h1, if_false]
  split_ifs <;> simp

theorem clampReflect_z_in (s : SPHSolver K) (p : FluidParticle K)
    (h0 : ¬ p.position.z < s.m_minBoundary.z + 0.01)
    (h1 : ¬ p.position.z > s.m_maxBoundary.z - 0.01) :
    (clampReflect s p).position.z = p.position.z
      ∧ (clampReflect s p).velocity.z = p.velocity.z := by
  unfold clampReflect
  simp only [h0, h1, if_false]
  split_ifs <;> simp

/-- After the boundary check the x coordinate lies within the margins, when the
margins do not cross. -/
theorem clampReflect_x_range (s : SPHSolver K) (p : FluidParticle K)
    (hx : s.m_minBoundary.x + 0.01 ≤ s.m_maxBoundary.x - 0.01) :
    s.m_minBoundary.x + 0.01 ≤ (clampReflect s p).position.x
      ∧ (clampReflect s p).position.x ≤ s.m_maxBoundary.x - 0.01 := by
  by_cases h0 : p.position.x < s.m_minBoundary.x + 0.01
  · rw [(clampReflect_x_min s p h0).1]
    exact ⟨le_refl _, hx⟩
  · by_cases h1 : p.position.x > s.m_maxBoundary.x - 0.01
    · rw [(clampReflect_x_max s p h0 h1).1]
      exact ⟨hx, le_refl _⟩
    · rw [(clampReflect_x_in s p h0 h1).1]
      exact ⟨not_lt.mp h0, not_lt.mp h1⟩

theorem clampReflect_y_range (s : SPHSolver K) (p : FluidParticle K)
    (hy : s.m_minBoundary.y + 0.01 ≤ s.m_maxBoundary.y - 0.01) :
    s.m_minBoundary.y + 0.01 ≤ (clampReflect s p).position.y
      ∧ (clampReflect s p).position.y ≤ s.m_maxBoundary.y - 0.01 := by
  by_cases h0 : p.position.y < s.m_minBoundary.y + 0.01
  · rw [(clampReflect_y_min s p h0).1]
    exact ⟨le_refl _, hy⟩
  · by_cases h1 : p.position.y > s.m_maxBoundary.y - 0.01
    · rw [(clampReflect_y_max s p h0 h1).1]
      exact ⟨hy, le_refl _⟩
    · rw [(clampReflect_y_in s p h0 h1).1]
      exact ⟨not_lt.mp h0, not_lt.mp h1⟩

theorem clampReflect_z_range (s : SPHSolver K) (p : FluidParticle K)
    (hz : s.m_minBoundary.z + 0.01 ≤ s.m_maxBoundary.z - 0.01) :
    s.m_minBoundary.z + 0.01 ≤ (clampReflect s p).position.z
      ∧ (clampReflect s p).position.z ≤ s.m_maxBoundary.z - 0.01 := by
  by_cases h0 : p.position.z < s.m_minBoundary.z + 0.01
  · rw [(clampReflect_z_min s p h0).1]
    exact ⟨le_refl _, hz⟩
  · by_cases h1 : p.position.z > s.m_maxBoundary.z - 0.01
    · rw [(clampReflect_z_max s p h0 h1).1]
      exact ⟨hz, le_refl _⟩
    · rw [(clampReflect_z_in s p h0 h1).1]
      exact ⟨not_lt.mp h0, not_lt.mp h1⟩

/-- A particle within the margins on all three axes passes the boundary check
unchanged. -/
theorem clampReflect_fixed (s : SPHSolver K) (p : FluidParticle K)
    (hx0 : ¬ p.position.x < s.m_minBoundary.x + 0.01)
    (hx1 : ¬ p.position.x > s.m_maxBoundary.x - 0.01)
    (hy0 : ¬ p.position.y < s.m_minBoundary.y + 0.01)
    (hy1 : ¬ p.position.y > s.m_maxBoundary.y - 0.01)
    (hz0 : ¬ p.position.z < s.m_minBoundary.z + 0.01)
    (hz1 : ¬ p.position.z > s.m_maxBoundary.z - 0.01) :
    clampReflect s p = p := by
  unfold clampReflect
  simp only [hx0, hx1, hy0, hy1, hz0, hz1, if_false]

/-- When the force vector is computed, `CalculateViscosityForceField` stores it. -/
theorem CalculateViscosityForceField_of_ok (m : CMath K) (s : SPHSolver K) (particle : Nat)
    (F : Vec3 K) (h : viscosityForceOf m s particle = .ok F) :
    CalculateViscosityForceField m s particle
      = .ok (s.setParticle particle { s.heap particle with viscosityForce := F }) := by
  simp only [CalculateViscosityForceField, h]

theorem Vec3.add_assoc_vec (a b c : Vec3 K) : a + b + c = a + (b + c) := by
  ext <;> simp only [Vec3.add_x, Vec3.add_y, Vec3.add_z] <;> ring

/-- The `USE_TBB` reduction of the density equals the sequential loop, for every
splitting. -/
theorem reduceDensity_eq_loop (m : CMath K) (s : SPHSolver K) (p : FluidParticle K)
    (split : Split) (range : List Nat) :
    reduceDensity m s p split range = densityLoop m s p range 0 := by
  induction split generalizing range with
  | leaf => rfl
  | node k left right ihl ihr =>
    simp only [reduceDensity, ihl, ihr, densityLoop_eq_sum, zero_add]
    rw [← List.sum_append, ← List.map_append, List.take_append_drop]

/-- Starting the pressure loop from `acc` adds `acc` to the result of the loop
started from zero. -/
theorem pressureLoop_shift (m : CMath K) (s : SPHSolver K) (p : FluidParticle K) (d : K)
    (l : List Nat) (acc : Vec3 K) :
    pressureLoop m s p d l acc
      = match pressureLoop m s p d l 0 with
        | .error f => .error f
        | .ok v => .ok (acc + v) := by
  induction l generalizing acc with
  | nil => simp only [pressureLoop, Vec3.add_zero_right]
  | cons n rest ih =>
    simp only [pressureLoop]
    cases pressureTerm m s p d n with
    | error f => rfl
    | ok t =>
      simp only
      rw [ih (acc + t), ih (0 + t)]
      cases pressureLoop m s p d rest 0 with
      | error f => rfl
      | ok v =>
        simp only [Vec3.add_zero_left, Vec3.add_assoc_vec]

/-- The pressure loop over a concatenation runs the second part from the result of
the first. -/
theorem pressureLoop_append (m : CMath K) (s : SPHSolver K) (p : FluidParticle K) (d : K)
    (l₁ l₂ : List Nat) (acc : Vec3 K) :
    pressureLoop m s p d (l₁ ++ l₂) acc
      = match pressureLoop m s p d l₁ acc with
        | .error f => .error f
        | .ok v => pressureLoop m s p d l₂ v := by
  induction l₁ generalizing acc with
  | nil => rfl
  | cons n rest ih =>
    simp only [List.cons_append, pressureLoop]
    cases pressureTerm m s p d n with
    | error f => rfl
    | ok t => exact ih _

/-- The `USE_TBB` reduction of the pressure gradient equals the sequential loop, for
every splitting. -/
theorem reducePressure_eq_loop (m : CMath K) (s : SPHSolver K) (p : FluidParticle K) (d : K)
    (split : Split) (range : List Nat) :
    reducePressure m s p d split range = pressureLoop m s p d range (Vec3.splat 0) := by
  induction split generalizing range with
  | leaf => rfl
  | node k left right ihl ihr =>
    simp only [reducePressure, ihl, ihr]
    conv_rhs => rw [← List.take_append_drop k range, pressureLoop_append]
    cases pressureLoop m s p d (List.take k range) (Vec3.splat 0) with
    | error f => rfl
    | ok x =>
      simp only
      rw [pressureLoop_shift m s p d (List.drop k range) x, Vec3.splat_zero]

theorem Vec3.sum_cons (v : Vec3 K) (l : List (Vec3 K)) :
    Vec3.sum (v :: l) = v + Vec3.sum l := rfl

theorem Vec3.sum_map_zero (f : Nat → Vec3 K) (l : List Nat) (h : ∀ n ∈ l, f n = 0) :
    Vec3.sum (l.map f) = 0 := by
  induction l with
  | nil => rfl
  | cons n rest ih =>
    rw [List.map_cons, Vec3.sum_cons, h n (List.mem_cons_self n rest),
      ih (fun k hk => h k (List.mem_cons_of_mem n hk)), Vec3.add_zero_right]

/-- With a non-zero kernel radius and a neighbor of non-zero density, one iteration
of the viscosity loop yields its summand. -/
theorem viscosityTerm_ok (m : CMath K) (s : SPHSolver K) (p : FluidParticle K) (n : Nat)
    (hh : s.m_kernelRadius ≠ 0) (hn : (s.heap n).density ≠ 0) :
    viscosityTerm m s p n
      = .ok (Vec3.divs (Vec3.muls ((s.heap n).velocity - p.velocity)
          (45 * (s.m_kernelRadius - distance m p.position (s.heap n).position)
            / (m.M_PI * s.m_kernelRadius ^ 6))) (s.heap n).density) := by
  have hden : m.M_PI * s.m_kernelRadius ^ 6 ≠ 0 :=
    mul_ne_zero (ne_of_gt m.M_PI_pos) (pow_ne_zero 6 hh)
  simp only [viscosityTerm, LaplacianKernelViscous, checkedDiv, if_neg hden, if_neg hn]

/-- With a neighbor of non-zero density, an iteration of the viscosity loop never
faults on the density divisor. -/
theorem viscosityTerm_no_density_fault (m : CMath K) (s : SPHSolver K) (p : FluidParticle K)
    (n : Nat) (hn : (s.heap n).density ≠ 0) :
    viscosityTerm m s p n = .error Fault.kernelDivisor ∨ ∃ v, viscosityTerm m s p n = .ok v := by
  by_cases hden : m.M_PI * s.m_kernelRadius ^ 6 = 0
  · left
    simp only [viscosityTerm, LaplacianKernelViscous, checkedDiv, if_pos hden]
  · right
    have hh : s.m_kernelRadius ≠ 0 := by
      intro h0
      apply hden
      rw [h0]
      simp
    exact ⟨_, viscosityTerm_ok m s p n hh hn⟩

theorem viscosityLoop_no_density_fault (m : CMath K) (s : SPHSolver K) (p : FluidParticle K)
    (l : List Nat) (hl : ∀ n ∈ l, (s.heap n).density ≠ 0) (acc : Vec3 K) :
    viscosityLoop m s p l acc ≠ .error Fault.densityDivisor := by
  induction l generalizing acc with
  | nil =>
    intro h
    simp [viscosityLoop] at h
  | cons n rest ih =>
    rcases viscosityTerm_no_density_fault m s p n (hl n (List.mem_cons_self n rest)) with h | ⟨v, h⟩
    · simp [viscosityLoop, h]
    · simp only [viscosityLoop, h]
      exact ih (fun k hk => hl k (List.mem_cons_of_mem n hk)) _

/-- With a non-zero kernel radius and neighbors of non-zero density the viscosity
loop adds the sum of its summands to its start value. -/
theorem viscosityLoop_ok (m : CMath K) (s : SPHSolver K) (p : FluidParticle K)
    (hh : s.m_kernelRadius ≠ 0) (l : List Nat) (hl : ∀ n ∈ l, (s.heap n).density ≠ 0)
    (acc : Vec3 K) :
    viscosityLoop m s p l acc
      = .ok (acc + Vec3.sum (l.map fun n =>
          Vec3.divs (Vec3.muls ((s.heap n).velocity - p.velocity)
            (45 * (s.m_kernelRadius - distance m p.position (s.heap n).position)
              / (m.M_PI * s.m_kernelRadius ^ 6))) (s.heap n).density)) := by
  induction l generalizing acc with
  | nil =>
    simp only [viscosityLoop, List.map_nil]
    congr 1
    exact (Vec3.add_zero_right acc).symm
  | cons n rest ih =>
    simp only [viscosityLoop, viscosityTerm_ok m s p n hh (hl n (List.mem_cons_self n rest)),
      List.map_cons, Vec3.sum_cons]
    rw [ih (fun k hk => hl k (List.mem_cons_of_mem n hk)), Vec3.add_assoc_vec]

/-- A neighbor of zero density makes the pressure loop fault on the density
divisor. -/
theorem pressureLoop_fault (m : CMath K) (s : SPHSolver K) (p : FluidParticle K)
    (l : List Nat) (n : Nat) (hn : n ∈ l) (h0 : (s.heap n).density = 0) (acc : Vec3 K) :
    pressureLoop m s p (p.density * p.density) l acc = .error Fault.densityDivisor := by
  induction l generalizing acc with
  | nil => simp at hn
  | cons k rest ih =>
    by_cases hk : p.density = 0 ∨ (s.heap k).density = 0
    · simp only [pressureLoop, pressureTerm_fault m s p k hk]
    · push_neg at hk
      rcases List.mem_cons.mp hn with h | h
      · exact absurd (h ▸ h0) hk.2
      · simp only [pressureLoop, pressureTerm_ok m s p k hk.1 hk.2]
        exact ih h _

/-- With a non-zero kernel radius and neighbors of non-zero density, the viscosity
force vector is computed. -/
theorem viscosityForceOf_ok (m : CMath K) (s : SPHSolver K) (particle : Nat)
    (hh : s.m_kernelRadius ≠ 0)
    (hl : ∀ n ∈ (s.heap particle).neighborRange, (s.heap n).density ≠ 0) :
    viscosityForceOf m s particle
      = .ok (Vec3.muls (Vec3.muls (Vec3.muls (Vec3.muls
          (Vec3.splat 0 + Vec3.sum ((s.heap particle).neighborRange.map fun n =>
            Vec3.divs (Vec3.muls ((s.heap n).velocity - (s.heap particle).velocity)
              (45 * (s.m_kernelRadius
                  - distance m (s.heap particle).position (s.heap n).position)
                / (m.M_PI * s.m_kernelRadius ^ 6))) (s.heap n).density))
          s.mass) s.mass) s.m_viscosity) 0.01) := by
  have hloop := viscosityLoop_ok m s (s.heap particle) hh _ hl (Vec3.splat 0)
  simp only [viscosityForceOf, hloop]

/-- The loop body of `CheckBoxIntersection` leaves every other particle alone. -/
theorem checkBoxParticle_heap_other (Intersect : Vec3 K → Vec3 K × Vec3 K × Bool)
    (s : SPHSolver K) (j k : Nat) (h : k ≠ j) :
    (checkBoxParticle Intersect s j).heap k = s.heap k := by
  unfold checkBoxParticle
  simp only
  split_ifs
  · exact setParticle_heap_other s j k _ h
  · rfl

/-- The particle the loop body of `CheckBoxIntersection` leaves at its pointer. -/
theorem checkBoxParticle_heap_self (Intersect : Vec3 K → Vec3 K × Vec3 K × Bool)
    (s : SPHSolver K) (j : Nat) :
    (checkBoxParticle Intersect s j).heap j
      = if (Intersect (s.heap j).position).2.2 then
          { s.heap j with
            position := (Intersect (s.heap j).position).1
            velocity := (s.heap j).velocity + Vec3.smul 2 (Intersect (s.heap j).position).2.1 }
        else s.heap j := by
  unfold checkBoxParticle
  simp only
  split_ifs
  · exact setParticle_heap_same s j _
  · rfl

theorem checkBox_foldl_not_mem (Intersect : Vec3 K → Vec3 K × Vec3 K × Bool)
    (l : List Nat) (s : SPHSolver K) (j : Nat) (h : j ∉ l) :
    (l.foldl (checkBoxParticle Intersect) s).heap j = s.heap j := by
  induction l generalizing s with
  | nil => rfl
  | cons a rest ih =>
    rw [List.foldl_cons, ih _ (fun hm => h (List.mem_cons_of_mem a hm))]
    exact checkBoxParticle_heap_other Intersect s a j (fun hja => h (hja ▸ List.mem_cons_self j rest))

/-- In a loop over distinct pointers, a listed particle ends as the loop body leaves
it. -/
theorem checkBox_foldl_mem (Intersect : Vec3 K → Vec3 K × Vec3 K × Bool)
    (l : List Nat) (s : SPHSolver K) (j : Nat) (hnd : l.Nodup) (h : j ∈ l) :
    (l.foldl (checkBoxParticle Intersect) s).heap j
      = (checkBoxParticle Intersect s j).heap j := by
  induction l generalizing s with
  | nil => simp at h
  | cons a rest ih =>
    rw [List.foldl_cons]
    have hnd' := List.nodup_cons.mp hnd
    by_cases hja : j = a
    · subst hja
      exact checkBox_foldl_not_mem Intersect rest _ j hnd'.1
    · have hmem : j ∈ rest := (List.mem_cons.mp h).resolve_left hja
      rw [ih _ hnd'.2 hmem, checkBoxParticle_heap_self, checkBoxParticle_heap_self,
        checkBoxParticle_heap_other Intersect s a j hja]

end SolverLemmas

/-! ## Claims on the solver steps -/

section SolverClaims

variable {K : Type} [LinearOrderedField K]

/-- C4 (as stated, refuted): in the container `flatContainer`, with an integrator
that leaves the particle where it is, the position `x = 0` exceeds
`maxBoundary.x - 0.01 = -0.01`, yet `UpdateDynamics` does not leave
`position.x = maxBoundary.x - 0.01`: the `x < minBoundary.x + 0.01` branch is taken
first and leaves `position.x = minBoundary.x + 0.01 = 0.01`. -/
theorem updateDynamics_max_side_not_symmetric :
    (flatContainer.heap 0).position.x > flatContainer.m_maxBoundary.x - 0.01
      ∧ ((UpdateDynamics (fun _ p => p) flatContainer 0 1).heap 0).position.x
          ≠ flatContainer.m_maxBoundary.x - 0.01
      ∧ ((UpdateDynamics (fun _ p => p) flatContainer 0 1).heap 0).position.x
          = flatContainer.m_minBoundary.x + 0.01 := by
  refine ⟨?_, ?_, ?_⟩ <;>
    norm_num [UpdateDynamics, clampReflect, flatContainer]

/-- C4 (amended): with `p` the particle its integrator step left and `q` the
particle `UpdateDynamics` leaves: if `p.x < minBoundary.x + 0.01` then
`q.x = minBoundary.x + 0.01` and `q.velocity.x = -0.2 * p.velocity.x`; if
`p.x > maxBoundary.x - 0.01` and not `p.x < minBoundary.x + 0.01` then
`q.x = maxBoundary.x - 0.01` and `q.velocity.x = -0.2 * p.velocity.x`; likewise on
the y and z axes; in particular a particle at `minBoundary.x - 1` with velocity
`(-5, 0, 0)` ends with `position.x = minBoundary.x + 0.01` and `velocity.x = 1`. -/
theorem updateDynamics_reflects (Update : K → FluidParticle K → FluidParticle K)
    (s : SPHSolver K) (particle : Nat) (deltaT : K) :
    let p := Update deltaT (s.heap particle)
    let q := (UpdateDynamics Update s particle deltaT).heap particle
    (p.position.x < s.m_minBoundary.x + 0.01 →
        q.position.x = s.m_minBoundary.x + 0.01 ∧ q.velocity.x = -0.2 * p.velocity.x)
      ∧ (¬ p.position.x < s.m_minBoundary.x + 0.01 → p.position.x > s.m_maxBoundary.x - 0.01 →
        q.position.x = s.m_maxBoundary.x - 0.01 ∧ q.velocity.x = -0.2 * p.velocity.x)
      ∧ (p.position.y < s.m_minBoundary.y + 0.01 →
        q.position.y = s.m_minBoundary.y + 0.01 ∧ q.velocity.y = -0.2 * p.velocity.y)
      ∧ (¬ p.position.y < s.m_minBoundary.y + 0.01 → p.position.y > s.m_maxBoundary.y - 0.01 →
        q.position.y = s.m_maxBoundary.y - 0.01 ∧ q.velocity.y = -0.2 * p.velocity.y)
      ∧ (p.position.z < s.m_minBoundary.z + 0.01 →
        q.position.z = s.m_minBoundary.z + 0.01 ∧ q.velocity.z = -0.2 * p.velocity.z)
      ∧ (¬ p.position.z < s.m_minBoundary.z + 0.01 → p.position.z > s.m_maxBoundary.z - 0.01 →
        q.position.z = s.m_maxBoundary.z - 0.01 ∧ q.velocity.z = -0.2 * p.velocity.z)
      ∧ (p.position.x = s.m_minBoundary.x - 1 → p.velocity = ⟨-5, 0, 0⟩ →
        q.position.x = s.m_minBoundary.x + 0.01 ∧ q.velocity.x = 1) := by
  intro p q
  have hq : q = clampReflect s p := by
    simp only [q, p, UpdateDynamics, setParticle_heap_same]
  rw [hq]
  refine ⟨clampReflect_x_min s p, clampReflect_x_max s p, clampReflect_y_min s p,
    clampReflect_y_max s p, clampReflect_z_min s p, clampReflect_z_max s p, ?_⟩
  intro hx hv
  have hlt : p.position.x < s.m_minBoundary.x + 0.01 := by
    rw [hx]
    have h100 : (0 : K) < 0.01 := by norm_num
    linarith
  obtain ⟨h1, h2⟩ := clampReflect_x_min s p hlt
  refine ⟨h1, ?_⟩
  rw [h2, hv]
  norm_num

/-- Instance of `updateDynamics_reflects` in `unitContainer`: the particle at
`x = minBoundary.x - 1 = -2` with velocity `(-5, 0, 3)` is put at `x = -0.99` with
`velocity.x = 1`, and its `z = 2 > 0.99` is put at `z = 0.99` with
`velocity.z = -0.6`. -/
theorem updateDynamics_reflects_witness :
    (((UpdateDynamics (fun _ p => p) unitContainer 0 1).heap 0).position.x = -1 + 0.01
        ∧ ((UpdateDynamics (fun _ p => p) unitContainer 0 1).heap 0).velocity.x = -0.2 * -5)
      ∧ (((UpdateDynamics (fun _ p => p) unitContainer 0 1).heap 0).position.z = 1 - 0.01
        ∧ ((UpdateDynamics (fun _ p => p) unitContainer 0 1).heap 0).velocity.z = -0.2 * 3) :=
  ⟨(updateDynamics_reflects (fun _ p => p) unitContainer 0 1).1
      (by norm_num [unitContainer]),
   (updateDynamics_reflects (fun _ p => p) unitContainer 0 1).2.2.2.2.2.1
      (by norm_num [unitContainer]) (by norm_num [unitContainer])⟩

/-- C2 (as stated, refuted): with densities 0 the force is not the negative of
anything: in `pairState 1 0 1 1` (two particles one unit apart, neighbors of each
other, density 0) `CalculatePressureForceField` divides by the squared density 0
and stores no force, on either particle. -/
theorem pressureForce_zero_density_faults :
    CalculatePressureForceField cmathQ (pairState 1 0 1 1) 0 = .error Fault.densityDivisor
      ∧ CalculatePressureForceField cmathQ (pairState 1 0 1 1) 1
          = .error Fault.densityDivisor := by
  constructor <;>
    simp [CalculatePressureForceField, pressureForceOf, pressureLoop, pressureTerm, checkedDiv,
      FluidParticle.neighborRange, pairState]

/-- C2 (amended): for two particles `a` and `b` of non-zero density whose neighbor
ranges contain each other once and otherwise only themselves, with any pressures,
mass and smoothing radius, `CalculatePressureForceField` run on `a` and then on `b`
succeeds and the force it stores on `a` is the negative of the one it stores on
`b`.  (The positions need not be distinct.) -/
theorem pressureForce_antisymmetric (m : CMath K) (s : SPHSolver K) (a b : Nat)
    (hab : a ≠ b)
    (ha : ∀ j ∈ (s.heap a).neighborRange, j = a ∨ j = b)
    (ha1 : (s.heap a).neighborRange.count b = 1)
    (hb : ∀ j ∈ (s.heap b).neighborRange, j = b ∨ j = a)
    (hb1 : (s.heap b).neighborRange.count a = 1)
    (hda : (s.heap a).density ≠ 0) (hdb : (s.heap b).density ≠ 0) :
    ∃ s1 s2, CalculatePressureForceField m s a = .ok s1
      ∧ CalculatePressureForceField m s1 b = .ok s2
      ∧ (s2.heap a).pressureForce = -(s2.heap b).pressureForce := by
  have hba : b ≠ a := Ne.symm hab
  obtain ⟨F, hFa, hFb⟩ : ∃ F, pressureForceOf m s a = .ok F
      ∧ pressureForceOf m s b = .ok (-F) := by
    refine ⟨_, pressureForceOf_pair m s a b hab hda hdb ha ha1, ?_⟩
    rw [pressureForceOf_pair m s b a hba hdb hda hb hb1]
    have hr : (s.heap b).position - (s.heap a).position
        = -((s.heap a).position - (s.heap b).position) := by
      ext <;> simp
    rw [hr, GradKernelSpiky_neg, distance_comm m (s.heap a).position (s.heap b).position]
    congr 1
    ext <;>
      simp only [Vec3.neg_x, Vec3.neg_y, Vec3.neg_z, Vec3.smul_x, Vec3.smul_y, Vec3.smul_z,
        Vec3.muls_x, Vec3.muls_y, Vec3.muls_z] <;>
      ring
  have h1 := CalculatePressureForceField_of_ok m s a F hFa
  have h2 := CalculatePressureForceField_of_ok m
    (s.setParticle a { s.heap a with pressureForce := F }) b (-F)
    (by rw [pressureForceOf_setForce]; exact hFb)
  refine ⟨_, _, h1, h2, ?_⟩
  rw [setParticle_heap_same, setParticle_heap_other _ b a _ hab, setParticle_heap_same]
  ext <;> simp only [Vec3.neg_x, Vec3.neg_y, Vec3.neg_z, neg_neg]

/-- Instance of `pressureForce_antisymmetric` at `pairState 1 1 3 5`: two particles one
unit apart with neighbor arrays `[0, 1]`, density 1 and pressures 3 and 5. -/
theorem pressureForce_antisymmetric_witness :
    ∃ s1 s2, CalculatePressureForceField cmathQ (pairState 1 1 3 5) 0 = .ok s1
      ∧ CalculatePressureForceField cmathQ s1 1 = .ok s2
      ∧ (s2.heap 0).pressureForce = -(s2.heap 1).pressureForce :=
  pressureForce_antisymmetric cmathQ (pairState 1 1 3 5) 0 1 (by decide)
    (by simp [FluidParticle.neighborRange, pairState])
    (by simp [FluidParticle.neighborRange, pairState])
    (by simp [FluidParticle.neighborRange, pairState])
    (by simp [FluidParticle.neighborRange, pairState])
    (by simp [pairState]) (by simp [pairState])

/-- C3 (as stated, refuted): in `farState`, particle `1` is at distance 3 from
particle `0`, beyond the smoothing radius 2.  With neighbor array `[1]` the
viscosity force stored on particle `0` is `(-9 / (1280 M_PI), 0, 0)`, with the
empty array it is zero: `LaplacianKernelViscous` has no support guard.  And when
particle `1` has density 0, `CalculatePressureForceField` on particle `0` divides
by zero with the array `[1]` and stores the zero force with the empty array. -/
theorem far_neighbor_changes_viscosity_force :
    distance cmathQ ((farState [1] 1).heap 0).position ((farState [1] 1).heap 1).position
        > (farState [1] 1).m_kernelRadius
      ∧ (CalculateViscosityForceField cmathQ (farState [1] 1) 0).map
          (fun t => (t.heap 0).viscosityForce) = .ok ⟨-9 / (1280 * M_PI_double), 0, 0⟩
      ∧ (CalculateViscosityForceField cmathQ (farState [] 1) 0).map
          (fun t => (t.heap 0).viscosityForce) = .ok 0
      ∧ (CalculatePressureForceField cmathQ (farState [1] 0) 0).map
          (fun t => (t.heap 0).pressureForce) = .error Fault.densityDivisor
      ∧ (CalculatePressureForceField cmathQ (farState [] 0) 0).map
          (fun t => (t.heap 0).pressureForce) = .ok 0 := by
  refine ⟨?_, ?_, ?_, ?_, ?_⟩
  · norm_num [distance, cmathQ, sqrtSmall, Vec3.dot, farState]
  · simp [CalculateViscosityForceField, viscosityForceOf, viscosityLoop, viscosityTerm,
      LaplacianKernelViscous, checkedDiv, FluidParticle.neighborRange, distance, farState,
      cmathQ, sqrtSmall, M_PI_double, Vec3.dot, Except.map, Vec3.ext_iff]
    norm_num
  · simp [CalculateViscosityForceField, viscosityForceOf, viscosityLoop,
      FluidParticle.neighborRange, farState, Except.map, Vec3.ext_iff]
  · simp [CalculatePressureForceField, pressureForceOf, pressureLoop, pressureTerm, checkedDiv,
      FluidParticle.neighborRange, farState, Except.map]
  · simp [CalculatePressureForceField, pressureForceOf, pressureLoop,
      FluidParticle.neighborRange, farState, Except.map, Vec3.ext_iff]

/-- C3 (amended): let `n` be an entry of the neighbor range of `particle` whose
distance to it exceeds the smoothing radius, and let `s'` be the state in which
that entry is removed from the neighbor array.  Then the summand of `n` in the
density loop is 0 and `CalculateDensity` stores the same density in `s'` as in
`s`; and when `particle` and `n` have non-zero density, the summand of `n` in the
pressure loop is the zero vector and `CalculatePressureForceField` has the same
outcome (the same stored force, or the same fault) in `s'` as in `s`. -/
theorem far_neighbor_no_contribution (m : CMath K) (s : SPHSolver K) (particle n : Nat)
    (l₁ l₂ : List Nat) (hrange : (s.heap particle).neighborRange = l₁ ++ n :: l₂)
    (hfar : distance m (s.heap n).position (s.heap particle).position > s.m_kernelRadius) :
    let s' := s.setParticle particle
      { s.heap particle with neighbors := l₁ ++ l₂, neighborsCount := (l₁ ++ l₂).length }
    KernelPoly6 m (distance m (s.heap n).position (s.heap particle).position) s.m_kernelRadius = 0
      ∧ ((CalculateDensity m s' particle).heap particle).density
          = ((CalculateDensity m s particle).heap particle).density
      ∧ ((s.heap particle).density ≠ 0 → (s.heap n).density ≠ 0 →
          pressureTerm m s (s.heap particle)
              ((s.heap particle).density * (s.heap particle).density) n = .ok 0
            ∧ (CalculatePressureForceField m s' particle).map
                (fun t => (t.heap particle).pressureForce)
              = (CalculatePressureForceField m s particle).map
                (fun t => (t.heap particle).pressureForce)) := by
  intro s'
  have hk : KernelPoly6 m (distance m (s.heap n).position (s.heap particle).position)
      s.m_kernelRadius = 0 := KernelPoly6_outside m _ _ (Or.inr (Or.inl hfar))
  have hself : s'.heap particle
      = { s.heap particle with neighbors := l₁ ++ l₂, neighborsCount := (l₁ ++ l₂).length } :=
    setParticle_heap_same s particle _
  have hrange' : (s'.heap particle).neighborRange = l₁ ++ l₂ := by
    rw [hself]
    simp only [FluidParticle.neighborRange, List.take_length]
  have hfield : ∀ k, (s'.heap k).position = (s.heap k).position
      ∧ (s'.heap k).density = (s.heap k).density
      ∧ (s'.heap k).pressure = (s.heap k).pressure := by
    intro k
    by_cases hkp : k = particle
    · subst hkp
      rw [hself]
      exact ⟨rfl, rfl, rfl⟩
    · rw [setParticle_heap_other s particle k _ hkp]
      exact ⟨rfl, rfl, rfl⟩
  refine ⟨hk, ?_, fun hp hn => ?_⟩
  · have hloop := densityLoop_congr m s s' (s.heap particle) (s'.heap particle) (l₁ ++ l₂) 0
      (hfield particle).1 (fun k => (hfield k).1) rfl
    have hmass : s'.mass = s.mass := rfl
    simp only [CalculateDensity, setParticle_heap_same, hrange', hrange, hloop, hmass,
      densityLoop_eq_sum, List.map_append, List.sum_append, List.map_cons, List.sum_cons, hk,
      zero_add]
  · have hterm := pressureTerm_far m s (s.heap particle) n hp hn hfar
    refine ⟨hterm, ?_⟩
    rw [CalculatePressureForceField_stored, CalculatePressureForceField_stored]
    have hloop := pressureLoop_congr m s s' (s.heap particle) (s'.heap particle)
      ((s.heap particle).density * (s.heap particle).density) (l₁ ++ l₂) (Vec3.splat 0)
      (hfield particle).1 (hfield particle).2.2 (fun k => (hfield k).1)
      (fun k => (hfield k).2.1) (fun k => (hfield k).2.2) rfl
    simp only [pressureForceOf, hrange', hrange, (hfield particle).2.1, hloop,
      pressureLoop_skip m s (s.heap particle) _ n hterm l₁ l₂]
    rfl

/-- Instance of `far_neighbor_no_contribution` at `farState [1] 1`: the neighbor `1`,
three units away and of density 1, is dropped from the neighbor array `[1]` of
particle `0`; the stored density and the stored pressure force do not change. -/
theorem far_neighbor_no_contribution_witness :
    ((CalculateDensity cmathQ ((farState [1] 1).setParticle 0
          { (farState [1] 1).heap 0 with
            neighbors := [] ++ [], neighborsCount := ([] ++ [] : List Nat).length }) 0).heap
        0).density = ((CalculateDensity cmathQ (farState [1] 1) 0).heap 0).density
      ∧ (CalculatePressureForceField cmathQ ((farState [1] 1).setParticle 0
          { (farState [1] 1).heap 0 with
            neighbors := [] ++ [], neighborsCount := ([] ++ [] : List Nat).length }) 0).map
          (fun t => (t.heap 0).pressureForce)
        = (CalculatePressureForceField cmathQ (farState [1] 1) 0).map
          (fun t => (t.heap 0).pressureForce) :=
  ⟨(far_neighbor_no_contribution cmathQ (farState [1] 1) 0 1 [] []
      (by simp [FluidParticle.neighborRange, farState])
      (by norm_num [distance, cmathQ, sqrtSmall, Vec3.dot, farState])).2.1,
   ((far_neighbor_no_contribution cmathQ (farState [1] 1) 0 1 [] []
      (by simp [FluidParticle.neighborRange, farState])
      (by norm_num [distance, cmathQ, sqrtSmall, Vec3.dot, farState])).2.2
      (by simp [farState]) (by simp [farState])).2⟩

/-- C5 (as stated, refuted): in `pairState` with rest density 0 and stiffness 1,
running `CalculateDensity` and `CalculatePressure` on all particles and then
`CalculatePressureForceField` on particle `0` stores `(-1024/637, 0, 0)` with mass 1
and `(-2048/637, 0, 0)` with mass 2: the force doubles, it does not quadruple. -/
theorem mass_doubling_recomputed_not_quadruple :
    (CalculatePressureForceField cmathQ (densityPressurePhase cmathQ (pairState 1 0 0 0)) 0).map
        (fun t => (t.heap 0).pressureForce) = .ok ⟨-1024 / 637, 0, 0⟩
      ∧ (CalculatePressureForceField cmathQ
          (densityPressurePhase cmathQ (SetConstant (pairState 1 0 0 0) .SPHMass (2 * 1))) 0).map
        (fun t => (t.heap 0).pressureForce) = .ok ⟨-2048 / 637, 0, 0⟩
      ∧ (⟨-2048 / 637, 0, 0⟩ : Vec3 ℚ) ≠ Vec3.smul 4 ⟨-1024 / 637, 0, 0⟩ := by
  have hset : SetConstant (pairState 1 0 0 0) .SPHMass (2 * 1) = pairState 2 0 0 0 := by
    simp only [SetConstant, pairState]
    norm_num
  rw [hset, CalculatePressureForceField_stored, CalculatePressureForceField_stored]
  refine ⟨?_, ?_, ?_⟩
  · simp only [densityPressurePhase, CalculateDensity, CalculatePressure, SPHSolver.setParticle,
      Function.update, densityLoop, FluidParticle.neighborRange, distance, KernelPoly6,
      pressureForceOf, pressureLoop, pressureTerm, checkedDiv, GradKernelSpiky, pairState,
      cmathQ, sqrtSmall, M_PI_double, Vec3.dot, List.foldl, List.take]
    norm_num [Vec3.ext_iff]
  · simp only [densityPressurePhase, CalculateDensity, CalculatePressure, SPHSolver.setParticle,
      Function.update, densityLoop, FluidParticle.neighborRange, distance, KernelPoly6,
      pressureForceOf, pressureLoop, pressureTerm, checkedDiv, GradKernelSpiky, pairState,
      cmathQ, sqrtSmall, M_PI_double, Vec3.dot, List.foldl, List.take]
    norm_num [Vec3.ext_iff]
  · norm_num [Vec3.smul]

/-- C5 (amended): for fixed positions, neighbor arrays, densities and pressures,
doubling the shared mass quadruples the pressure force `CalculatePressureForceField`
stores on any particle (and leaves a fault a fault); the force is stored whenever
the particle and its neighbors have non-zero density. -/
theorem pressureForce_mass_quadruples (m : CMath K) (s : SPHSolver K) (particle : Nat) :
    (CalculatePressureForceField m (SetConstant s .SPHMass (2 * s.mass)) particle).map
        (fun t => (t.heap particle).pressureForce)
      = (CalculatePressureForceField m s particle).map
        (fun t => Vec3.smul 4 (t.heap particle).pressureForce)
      ∧ ((s.heap particle).density ≠ 0 →
          (∀ n ∈ (s.heap particle).neighborRange, (s.heap n).density ≠ 0) →
          ∃ t, CalculatePressureForceField m s particle = .ok t) := by
  constructor
  · have hloop := pressureLoop_congr m s (SetConstant s .SPHMass (2 * s.mass)) (s.heap particle)
      (s.heap particle) ((s.heap particle).density * (s.heap particle).density)
      (s.heap particle).neighborRange (Vec3.splat 0) rfl rfl (fun _ => rfl) (fun _ => rfl)
      (fun _ => rfl) rfl
    have hheap : (SetConstant s .SPHMass (2 * s.mass)).heap = s.heap := rfl
    have hmass : (SetConstant s .SPHMass (2 * s.mass)).mass = 2 * s.mass := rfl
    rw [CalculatePressureForceField_stored]
    unfold CalculatePressureForceField pressureForceOf
    simp only [hheap, hmass, hloop]
    cases pressureLoop m s (s.heap particle)
        ((s.heap particle).density * (s.heap particle).density)
        (s.heap particle).neighborRange (Vec3.splat 0) with
    | error f => rfl
    | ok v =>
      simp only [Except.map, setParticle_heap_same]
      congr 1
      ext <;>
        simp only [Vec3.neg_x, Vec3.neg_y, Vec3.neg_z, Vec3.smul_x, Vec3.smul_y, Vec3.smul_z,
          Vec3.muls_x, Vec3.muls_y, Vec3.muls_z] <;>
        ring
  · intro hp hl
    obtain ⟨v, hv⟩ := pressureLoop_ok m s (s.heap particle) hp _ hl (Vec3.splat 0)
    have hF : pressureForceOf m s particle
        = .ok (Vec3.muls (Vec3.muls (-v) s.mass) s.mass) := by
      simp only [pressureForceOf, hv]
    exact ⟨_, CalculatePressureForceField_of_ok m s particle _ hF⟩

/-- Instance of `pressureForce_mass_quadruples` at `pairState 1 1 3 5`, where both
particles have density 1: the force on particle `0` is stored. -/
theorem pressureForce_mass_quadruples_witness :
    ∃ t, CalculatePressureForceField cmathQ (pairState 1 1 3 5) 0 = .ok t :=
  (pressureForce_mass_quadruples cmathQ (pairState 1 1 3 5) 0).2
    (by simp [pairState])
    (by simp [FluidParticle.neighborRange, pairState])

/-- C6: `CalculateDensity` sets the density of the particle to
`mass * sum over the first neighborsCount neighbors n of KernelPoly6(|p - n|, h)`,
where `|p - n|` is the square root of the inner product of `p - n` with itself;
hence doubling the shared mass doubles the density it stores. -/
theorem calculateDensity_spec (m : CMath K) (s : SPHSolver K) (particle : Nat) :
    ((CalculateDensity m s particle).heap particle).density
        = s.mass * (((s.heap particle).neighbors.take (s.heap particle).neighborsCount).map
            fun n => KernelPoly6 m
              (m.sqrt (Vec3.dot ((s.heap particle).position - (s.heap n).position)
                ((s.heap particle).position - (s.heap n).position)))
              s.m_kernelRadius).sum
      ∧ ((CalculateDensity m (SetConstant s .SPHMass (2 * s.mass)) particle).heap particle).density
        = 2 * ((CalculateDensity m s particle).heap particle).density := by
  have key : ∀ t : SPHSolver K, t.heap = s.heap → t.m_kernelRadius = s.m_kernelRadius →
      ((CalculateDensity m t particle).heap particle).density
        = t.mass * (((s.heap particle).neighbors.take (s.heap particle).neighborsCount).map
            fun n => KernelPoly6 m
              (m.sqrt (Vec3.dot ((s.heap particle).position - (s.heap n).position)
                ((s.heap particle).position - (s.heap n).position)))
              s.m_kernelRadius).sum := by
    intro t hheap hr
    simp only [CalculateDensity, setParticle_heap_same, densityLoop_eq_sum, zero_add,
      FluidParticle.neighborRange, distance, hheap, hr]
  constructor
  · exact key s rfl rfl
  · rw [key s rfl rfl, key (SetConstant s .SPHMass (2 * s.mass)) rfl rfl]
    simp only [SetConstant]
    ring

/-- C10: `CalculatePressure` stores `stiffness * (density - restDensity)` as the
pressure of the particle, unclamped: for a positive stiffness the stored pressure
is negative exactly when the density is below the rest density; the other fields
of the particle, the other particles and the solver constants are unchanged. -/
theorem calculatePressure_spec (s : SPHSolver K) (particle : Nat) :
    let p := s.heap particle
    let q := (CalculatePressure s particle).heap particle
    q.pressure = s.m_stiffness * (p.density - s.m_restDensity)
      ∧ (0 < s.m_stiffness → (q.pressure < 0 ↔ p.density < s.m_restDensity))
      ∧ (q.position = p.position ∧ q.velocity = p.velocity ∧ q.density = p.density
        ∧ q.pressureForce = p.pressureForce ∧ q.viscosityForce = p.viscosityForce
        ∧ q.neighbors = p.neighbors ∧ q.neighborsCount = p.neighborsCount)
      ∧ (∀ other, other ≠ particle → (CalculatePressure s particle).heap other = s.heap other)
      ∧ CalculatePressure s particle = { s with heap := (CalculatePressure s particle).heap } := by
  intro p q
  have hq : q = { p with pressure := s.m_stiffness * (p.density - s.m_restDensity) } := by
    simp only [q, p, CalculatePressure, setParticle_heap_same]
  refine ⟨by rw [hq], fun hk => ?_, by rw [hq]; simp, fun other ho => ?_, ?_⟩
  · rw [hq]
    simp only
    constructor
    · intro hneg
      by_contra hge
      have : 0 ≤ s.m_stiffness * (p.density - s.m_restDensity) :=
        mul_nonneg hk.le (sub_nonneg.mpr (not_lt.mp hge))
      exact absurd hneg (not_lt.mpr this)
    · intro hlt
      exact mul_neg_of_pos_of_neg hk (sub_neg.mpr hlt)
  · simp only [CalculatePressure]
    exact setParticle_heap_other s particle other _ ho
  · simp only [CalculatePressure, SPHSolver.setParticle]

/-- Instance of `calculatePressure_spec` in `unitContainer` (stiffness 1, rest density 1,
particle density 0): the stored pressure `1 * (0 - 1)` is negative. -/
theorem calculatePressure_spec_witness :
    ((CalculatePressure unitContainer 0).heap 0).pressure < 0
      ↔ (unitContainer.heap 0).density < unitContainer.m_restDensity :=
  (calculatePressure_spec unitContainer 0).2.1 (by norm_num [unitContainer])

/-- C11: rest state.  For a particle whose density equals the rest density and
whose `neighborsCount` is 0, `CalculatePressure` stores the pressure 0, then
`CalculatePressureForceField` succeeds and stores the zero vector, then
`CalculateViscosityForceField` succeeds and stores the zero vector, whatever the
stiffness, viscosity, mass and smoothing radius (and whatever the velocity). -/
theorem rest_state_zero_forces (m : CMath K) (s : SPHSolver K) (particle : Nat)
    (hden : (s.heap particle).density = s.m_restDensity)
    (hcount : (s.heap particle).neighborsCount = 0) :
    ((CalculatePressure s particle).heap particle).pressure = 0
      ∧ ∃ s2 s3, CalculatePressureForceField m (CalculatePressure s particle) particle = .ok s2
          ∧ (s2.heap particle).pressureForce = 0
          ∧ CalculateViscosityForceField m s2 particle = .ok s3
          ∧ (s3.heap particle).viscosityForce = 0
          ∧ (s3.heap particle).pressureForce = 0 ∧ (s3.heap particle).pressure = 0 := by
  have hpress : ((CalculatePressure s particle).heap particle).pressure = 0 := by
    simp only [CalculatePressure, setParticle_heap_same, hden, sub_self, mul_zero]
  have hrange1 : ((CalculatePressure s particle).heap particle).neighborRange = [] := by
    simp only [CalculatePressure, setParticle_heap_same, FluidParticle.neighborRange, hcount,
      List.take_zero]
  have hF : pressureForceOf m (CalculatePressure s particle) particle = .ok 0 := by
    simp only [pressureForceOf, hrange1, pressureLoop]
    congr 1
    ext <;> simp
  have h2 := CalculatePressureForceField_of_ok m (CalculatePressure s particle) particle 0 hF
  have hrange2 : (((CalculatePressure s particle).setParticle particle
      { (CalculatePressure s particle).heap particle with pressureForce := 0 }).heap
        particle).neighborRange = [] := by
    rw [setParticle_heap_same]
    exact hrange1
  have hV : viscosityForceOf m ((CalculatePressure s particle).setParticle particle
      { (CalculatePressure s particle).heap particle with pressureForce := 0 }) particle
      = .ok 0 := by
    simp only [viscosityForceOf, hrange2, viscosityLoop]
    congr 1
    ext <;> simp
  have h3 := CalculateViscosityForceField_of_ok m _ particle 0 hV
  refine ⟨hpress, _, _, h2, ?_, h3, ?_, ?_, ?_⟩
  · rw [setParticle_heap_same]
  · rw [setParticle_heap_same]
  · rw [setParticle_heap_same, setParticle_heap_same]
  · rw [setParticle_heap_same, setParticle_heap_same]
    exact hpress

/-- Instance of `rest_state_zero_forces` at `farState [] 1` with the rest density set
to the density 1 of particle `0`, whose neighbor array is empty. -/
theorem rest_state_zero_forces_witness :
    ((CalculatePressure (SetConstant (farState [] 1) .SPHRestDensity 1) 0).heap 0).pressure = 0
      ∧ ∃ s2 s3, CalculatePressureForceField cmathQ
            (CalculatePressure (SetConstant (farState [] 1) .SPHRestDensity 1) 0) 0 = .ok s2
          ∧ (s2.heap 0).pressureForce = 0
          ∧ CalculateViscosityForceField cmathQ s2 0 = .ok s3
          ∧ (s3.heap 0).viscosityForce = 0
          ∧ (s3.heap 0).pressureForce = 0 ∧ (s3.heap 0).pressure = 0 :=
  rest_state_zero_forces cmathQ (SetConstant (farState [] 1) .SPHRestDensity 1) 0
    (by simp [SetConstant, farState]) (by simp [SetConstant, farState])

/-- C14 (as stated, refuted): the solver constructed with `cellSize = 1` has the
smoothing radius 2 and hands the cell size 1 to its grid, which is smaller than
the smoothing radius. -/
theorem create_grid_cell_smaller_than_radius :
    (SPHSolver.create unitContainer.toFluidSolver 1 1 1 1).m_kernelRadius = 2
      ∧ (SPHSolver.create unitContainer.toFluidSolver 1 1 1 1).m_grid.cellSize = 1
      ∧ (SPHSolver.create unitContainer.toFluidSolver 1 1 1 1).m_grid.cellSize
          < (SPHSolver.create unitContainer.toFluidSolver 1 1 1 1).m_kernelRadius := by
  refine ⟨?_, ?_, ?_⟩ <;> norm_num [SPHSolver.create]

/-- C14 (amended): for every solver constructed with `cellSize`, the smoothing
radius is `m_kernelRadius = 2 * cellSize` and the cell size handed to the grid is
`cellSize` itself, half the smoothing radius; for `cellSize > 0` it is smaller than
the smoothing radius. -/
theorem create_kernelRadius (base : FluidSolver K)
    (cellSize stiffness viscosity restDensity : K) :
    (SPHSolver.create base cellSize stiffness viscosity restDensity).m_kernelRadius
        = 2 * cellSize
      ∧ (SPHSolver.create base cellSize stiffness viscosity restDensity).m_grid.cellSize
        = cellSize
      ∧ (0 < cellSize →
        (SPHSolver.create base cellSize stiffness viscosity restDensity).m_grid.cellSize
          < (SPHSolver.create base cellSize stiffness viscosity restDensity).m_kernelRadius) := by
  refine ⟨?_, rfl, fun h => ?_⟩
  · simp only [SPHSolver.create]
    ring
  · simp only [SPHSolver.create]
    linarith

/-- Instance of `create_kernelRadius` at `cellSize = 1`. -/
theorem create_kernelRadius_witness :
    (SPHSolver.create unitContainer.toFluidSolver 1 1 1 1).m_grid.cellSize
      < (SPHSolver.create unitContainer.toFluidSolver 1 1 1 1).m_kernelRadius :=
  (create_kernelRadius unitContainer.toFluidSolver 1 1 1 1).2.2 (by norm_num)

/-- C17: container invariant.  When `minBoundary + 0.01 <= maxBoundary - 0.01` on
every axis, every coordinate of the position `UpdateDynamics` leaves lies in
`[minBoundary + 0.01, maxBoundary - 0.01]` on its axis, whatever particle `p` the
integrator produced; the position and velocity components on one axis are a
function of the components of `p` and of the bounds on that axis alone; and on an
axis whose coordinate of `p` already lies in the interval, position and velocity
components are those of `p`. -/
theorem updateDynamics_container_invariant (Update : K → FluidParticle K → FluidParticle K)
    (s : SPHSolver K) (particle : Nat) (deltaT : K)
    (hx : s.m_minBoundary.x + 0.01 ≤ s.m_maxBoundary.x - 0.01)
    (hy : s.m_minBoundary.y + 0.01 ≤ s.m_maxBoundary.y - 0.01)
    (hz : s.m_minBoundary.z + 0.01 ≤ s.m_maxBoundary.z - 0.01) :
    let p := Update deltaT (s.heap particle)
    let q := (UpdateDynamics Update s particle deltaT).heap particle
    (s.m_minBoundary.x + 0.01 ≤ q.position.x ∧ q.position.x ≤ s.m_maxBoundary.x - 0.01)
      ∧ (s.m_minBoundary.y + 0.01 ≤ q.position.y ∧ q.position.y ≤ s.m_maxBoundary.y - 0.01)
      ∧ (s.m_minBoundary.z + 0.01 ≤ q.position.z ∧ q.position.z ≤ s.m_maxBoundary.z - 0.01)
      ∧ ((q.position.x, q.velocity.x)
          = if p.position.x < s.m_minBoundary.x + 0.01 then
              (s.m_minBoundary.x + 0.01, -0.2 * p.velocity.x)
            else if p.position.x > s.m_maxBoundary.x - 0.01 then
              (s.m_maxBoundary.x - 0.01, -0.2 * p.velocity.x)
            else (p.position.x, p.velocity.x))
      ∧ ((q.position.y, q.velocity.y)
          = if p.position.y < s.m_minBoundary.y + 0.01 then
              (s.m_minBoundary.y + 0.01, -0.2 * p.velocity.y)
            else if p.position.y > s.m_maxBoundary.y - 0.01 then
              (s.m_maxBoundary.y - 0.01, -0.2 * p.velocity.y)
            else (p.position.y, p.velocity.y))
      ∧ ((q.position.z, q.velocity.z)
          = if p.position.z < s.m_minBoundary.z + 0.01 then
              (s.m_minBoundary.z + 0.01, -0.2 * p.velocity.z)
            else if p.position.z > s.m_maxBoundary.z - 0.01 then
              (s.m_maxBoundary.z - 0.01, -0.2 * p.velocity.z)
            else (p.position.z, p.velocity.z))
      ∧ (s.m_minBoundary.x + 0.01 ≤ p.position.x → p.position.x ≤ s.m_maxBoundary.x - 0.01 →
          q.position.x = p.position.x ∧ q.velocity.x = p.velocity.x)
      ∧ (s.m_minBoundary.y + 0.01 ≤ p.position.y → p.position.y ≤ s.m_maxBoundary.y - 0.01 →
          q.position.y = p.position.y ∧ q.velocity.y = p.velocity.y)
      ∧ (s.m_minBoundary.z + 0.01 ≤ p.position.z → p.position.z ≤ s.m_maxBoundary.z - 0.01 →
          q.position.z = p.position.z ∧ q.velocity.z = p.velocity.z) := by
  intro p q
  have hq : q = clampReflect s p := by
    simp only [q, p, UpdateDynamics, setParticle_heap_same]
  rw [hq]
  refine ⟨clampReflect_x_range s p hx, clampReflect_y_range s p hy, clampReflect_z_range s p hz,
    ?_, ?_, ?_,
    fun h0 h1 => clampReflect_x_in s p (not_lt.mpr h0) (not_lt.mpr h1),
    fun h0 h1 => clampReflect_y_in s p (not_lt.mpr h0) (not_lt.mpr h1),
    fun h0 h1 => clampReflect_z_in s p (not_lt.mpr h0) (not_lt.mpr h1)⟩
  · split_ifs with h0 h1
    · rw [(clampReflect_x_min s p h0).1, (clampReflect_x_min s p h0).2]
    · rw [(clampReflect_x_max s p h0 h1).1, (clampReflect_x_max s p h0 h1).2]
    · rw [(clampReflect_x_in s p h0 h1).1, (clampReflect_x_in s p h0 h1).2]
  · split_ifs with h0 h1
    · rw [(clampReflect_y_min s p h0).1, (clampReflect_y_min s p h0).2]
    · rw [(clampReflect_y_max s p h0 h1).1, (clampReflect_y_max s p h0 h1).2]
    · rw [(clampReflect_y_in s p h0 h1).1, (clampReflect_y_in s p h0 h1).2]
  · split_ifs with h0 h1
    · rw [(clampReflect_z_min s p h0).1, (clampReflect_z_min s p h0).2]
    · rw [(clampReflect_z_max s p h0 h1).1, (clampReflect_z_max s p h0 h1).2]
    · rw [(clampReflect_z_in s p h0 h1).1, (clampReflect_z_in s p h0 h1).2]

/-- Instance of `updateDynamics_container_invariant` in `unitContainer`, whose
particle at `(-2, 0, 2)` ends inside `[-0.99, 0.99]` on the x axis. -/
theorem updateDynamics_container_invariant_witness :
    unitContainer.m_minBoundary.x + 0.01
        ≤ ((UpdateDynamics (fun _ p => p) unitContainer 0 1).heap 0).position.x
      ∧ ((UpdateDynamics (fun _ p => p) unitContainer 0 1).heap 0).position.x
        ≤ unitContainer.m_maxBoundary.x - 0.01 :=
  (updateDynamics_container_invariant (fun _ p => p) unitContainer 0 1
    (by norm_num [unitContainer]) (by norm_num [unitContainer])
    (by norm_num [unitContainer])).1

/-- C20: when `minBoundary + 0.01 <= maxBoundary - 0.01` on every axis, the boundary
check of `UpdateDynamics` is idempotent: applied to its own output it changes
neither position nor velocity (nor anything else). -/
theorem clampReflect_idempotent (s : SPHSolver K) (p : FluidParticle K)
    (hx : s.m_minBoundary.x + 0.01 ≤ s.m_maxBoundary.x - 0.01)
    (hy : s.m_minBoundary.y + 0.01 ≤ s.m_maxBoundary.y - 0.01)
    (hz : s.m_minBoundary.z + 0.01 ≤ s.m_maxBoundary.z - 0.01) :
    clampReflect s (clampReflect s p) = clampReflect s p :=
  clampReflect_fixed s (clampReflect s p)
    (not_lt.mpr (clampReflect_x_range s p hx).1) (not_lt.mpr (clampReflect_x_range s p hx).2)
    (not_lt.mpr (clampReflect_y_range s p hy).1) (not_lt.mpr (clampReflect_y_range s p hy).2)
    (not_lt.mpr (clampReflect_z_range s p hz).1) (not_lt.mpr (clampReflect_z_range s p hz).2)

/-- Instance of `clampReflect_idempotent` in `unitContainer`, on its particle at
`(-2, 0, 2)`, which the first application reflects on the x and z axes. -/
theorem clampReflect_idempotent_witness :
    clampReflect unitContainer (clampReflect unitContainer (unitContainer.heap 0))
      = clampReflect unitContainer (unitContainer.heap 0) :=
  clampReflect_idempotent unitContainer (unitContainer.heap 0)
    (by norm_num [unitContainer]) (by norm_num [unitContainer]) (by norm_num [unitContainer])

/-- C18: for every particle, neighbor array and splitting of the neighbor range into
blocks, the `USE_TBB` versions of `CalculateDensity` and
`CalculatePressureForceField` (per-block partial sums joined with `+`) have the
same outcome as the sequential loops: the same state, or the same fault. -/
theorem tbb_reductions_eq_sequential (m : CMath K) (split : Split) (s : SPHSolver K)
    (particle : Nat) :
    CalculateDensityTBB m split s particle = CalculateDensity m s particle
      ∧ CalculatePressureForceFieldTBB m split s particle
          = CalculatePressureForceField m s particle := by
  constructor
  · simp only [CalculateDensityTBB, CalculateDensity, reduceDensity_eq_loop]
  · simp only [CalculatePressureForceFieldTBB, CalculatePressureForceField, pressureForceOf,
      reducePressure_eq_loop]
    cases pressureLoop m s (s.heap particle)
        ((s.heap particle).density * (s.heap particle).density)
        (s.heap particle).neighborRange (Vec3.splat 0) with
    | error f => rfl
    | ok v => rfl

/-- C12 (as stated, refuted): in `pairState 1 0 1 1` every neighbor of particle `0`
has the velocity of particle `0` (all are at rest), yet
`CalculateViscosityForceField` does not store the zero vector: the neighbors have
density 0 and the division by `neighbor->Density()` faults. -/
theorem viscosityForce_equal_velocities_zero_density :
    (∀ n ∈ ((pairState 1 0 1 1).heap 0).neighborRange,
        ((pairState 1 0 1 1).heap n).velocity = ((pairState 1 0 1 1).heap 0).velocity)
      ∧ CalculateViscosityForceField cmathQ (pairState 1 0 1 1) 0
          = .error Fault.densityDivisor := by
  constructor
  · intro n _
    simp only [pairState]
    split_ifs <;> rfl
  · simp [CalculateViscosityForceField, viscosityForceOf, viscosityLoop, viscosityTerm,
      LaplacianKernelViscous, checkedDiv, FluidParticle.neighborRange, pairState, cmathQ,
      M_PI_double]

/-- C12 (amended): when the smoothing radius `h` is not 0 and every neighbor has
non-zero density, `CalculateViscosityForceField` succeeds and stores
`0.01 * viscosity * mass^2 * sum over neighbors n of
(velocity(n) - velocity(p)) * (45 (h - |p - n|) / (pi h^6)) / density(n)`; this is the
zero vector when every neighbor has the velocity of `p`. -/
theorem viscosityForce_formula (m : CMath K) (s : SPHSolver K) (particle : Nat)
    (hh : s.m_kernelRadius ≠ 0)
    (hl : ∀ n ∈ (s.heap particle).neighborRange, (s.heap n).density ≠ 0) :
    ∃ t, CalculateViscosityForceField m s particle = .ok t
      ∧ (t.heap particle).viscosityForce
        = Vec3.smul (0.01 * s.m_viscosity * s.mass ^ 2)
            (Vec3.sum ((s.heap particle).neighborRange.map fun n =>
              Vec3.divs (Vec3.muls ((s.heap n).velocity - (s.heap particle).velocity)
                (45 * (s.m_kernelRadius
                    - distance m (s.heap particle).position (s.heap n).position)
                  / (m.M_PI * s.m_kernelRadius ^ 6))) (s.heap n).density))
      ∧ ((∀ n ∈ (s.heap particle).neighborRange,
            (s.heap n).velocity = (s.heap particle).velocity) →
          (t.heap particle).viscosityForce = 0) := by
  have hV := viscosityForceOf_ok m s particle hh hl
  refine ⟨_, CalculateViscosityForceField_of_ok m s particle _ hV, ?_, fun hvel => ?_⟩
  · rw [setParticle_heap_same]
    ext <;>
      simp only [Vec3.add_x, Vec3.add_y, Vec3.add_z, Vec3.splat_zero_x, Vec3.splat_zero_y,
        Vec3.splat_zero_z, Vec3.smul_x, Vec3.smul_y, Vec3.smul_z, Vec3.muls_x, Vec3.muls_y,
        Vec3.muls_z] <;>
      ring
  · rw [setParticle_heap_same]
    have hsum := Vec3.sum_map_zero (fun n =>
        Vec3.divs (Vec3.muls ((s.heap n).velocity - (s.heap particle).velocity)
          (45 * (s.m_kernelRadius - distance m (s.heap particle).position (s.heap n).position)
            / (m.M_PI * s.m_kernelRadius ^ 6))) (s.heap n).density)
      (s.heap particle).neighborRange (by
        intro n hn
        simp only [hvel n hn, Vec3.sub_self_eq_zero]
        ext <;> simp)
    simp only [hsum]
    ext <;> simp

/-- Instance of `viscosityForce_formula` at `pairState 1 1 3 5` (smoothing radius 2,
densities 1, both particles at rest): the stored viscosity force is zero. -/
theorem viscosityForce_formula_witness :
    ∃ t, CalculateViscosityForceField cmathQ (pairState 1 1 3 5) 0 = .ok t
      ∧ (t.heap 0).viscosityForce = 0 := by
  obtain ⟨t, ht, _, hzero⟩ := viscosityForce_formula cmathQ (pairState 1 1 3 5) 0
    (by norm_num [pairState])
    (by
      intro n _
      simp only [pairState]
      split_ifs <;> norm_num)
  refine ⟨t, ht, hzero ?_⟩
  intro n _
  simp only [pairState]
  split_ifs <;> rfl

/-- C19: the divisions by density are unguarded.  In `farState [1] 0` the neighbor
array of particle `0` holds particle `1` of density 0, and both
`CalculatePressureForceField` and `CalculateViscosityForceField` reach the division
by a zero density; in any state a neighbor of zero density makes
`CalculatePressureForceField` reach it.  When the particle and all its neighbors
have non-zero density, neither method reaches it: `CalculatePressureForceField`
succeeds, and `CalculateViscosityForceField` does not fault on a density (it
succeeds when the smoothing radius is not 0). -/
theorem density_division_reachability (m : CMath K) (s : SPHSolver K) (particle : Nat) :
    ((∃ n ∈ ((farState [1] 0).heap 0).neighborRange, ((farState [1] 0).heap n).density = 0)
        ∧ CalculatePressureForceField cmathQ (farState [1] 0) 0 = .error Fault.densityDivisor
        ∧ CalculateViscosityForceField cmathQ (farState [1] 0) 0
            = .error Fault.densityDivisor)
      ∧ ((∃ n ∈ (s.heap particle).neighborRange, (s.heap n).density = 0) →
          CalculatePressureForceField m s particle = .error Fault.densityDivisor)
      ∧ ((s.heap particle).density ≠ 0 →
          (∀ n ∈ (s.heap particle).neighborRange, (s.heap n).density ≠ 0) →
          (∃ t, CalculatePressureForceField m s particle = .ok t)
            ∧ CalculateViscosityForceField m s particle ≠ .error Fault.densityDivisor
            ∧ (s.m_kernelRadius ≠ 0 →
                ∃ t, CalculateViscosityForceField m s particle = .ok t)) := by
  refine ⟨⟨?_, ?_, ?_⟩, ?_, ?_⟩
  · exact ⟨1, by simp [FluidParticle.neighborRange, farState], by simp [farState]⟩
  · simp [CalculatePressureForceField, pressureForceOf, pressureLoop, pressureTerm, checkedDiv,
      FluidParticle.neighborRange, farState]
  · simp [CalculateViscosityForceField, viscosityForceOf, viscosityLoop, viscosityTerm,
      LaplacianKernelViscous, checkedDiv, FluidParticle.neighborRange, farState, cmathQ,
      M_PI_double]
  · rintro ⟨n, hn, h0⟩
    simp only [CalculatePressureForceField, pressureForceOf,
      pressureLoop_fault m s (s.heap particle) _ n hn h0]
  · intro hp hl
    refine ⟨?_, ?_, fun hh => ?_⟩
    · obtain ⟨v, hv⟩ := pressureLoop_ok m s (s.heap particle) hp _ hl (Vec3.splat 0)
      have hF : pressureForceOf m s particle
          = .ok (Vec3.muls (Vec3.muls (-v) s.mass) s.mass) := by
        simp only [pressureForceOf, hv]
      exact ⟨_, CalculatePressureForceField_of_ok m s particle _ hF⟩
    · have hno := viscosityLoop_no_density_fault m s (s.heap particle) _ hl (Vec3.splat 0)
      intro hcon
      apply hno
      simp only [CalculateViscosityForceField, viscosityForceOf] at hcon
      cases hloop : viscosityLoop m s (s.heap particle) (s.heap particle).neighborRange
          (Vec3.splat 0) with
      | error f =>
        rw [hloop] at hcon
        simp only [Except.error.injEq] at hcon
        rw [hcon]
      | ok v =>
        rw [hloop] at hcon
        simp at hcon
    · exact ⟨_, CalculateViscosityForceField_of_ok m s particle _
        (viscosityForceOf_ok m s particle hh hl)⟩

/-- Instance of `density_division_reachability` at `pairState 1 1 3 5`, where both
particles have density 1: neither method faults. -/
theorem density_division_reachability_witness :
    (∃ t, CalculatePressureForceField cmathQ (pairState 1 1 3 5) 0 = .ok t)
      ∧ CalculateViscosityForceField cmathQ (pairState 1 1 3 5) 0 ≠ .error Fault.densityDivisor
      ∧ ((pairState 1 1 3 5).m_kernelRadius ≠ 0 →
          ∃ t, CalculateViscosityForceField cmathQ (pairState 1 1 3 5) 0 = .ok t) :=
  (density_division_reachability cmathQ (pairState 1 1 3 5) 0).2.2
    (by simp [pairState])
    (by
      intro n _
      simp only [pairState]
      split_ifs <;> norm_num)

/-- C15: `CheckBoxIntersection`, for a box with the method `Intersect` and a
particle listed once in `m_particles`.  If `Intersect` reports an intersection for
the position of the particle, its position becomes the returned position and its
velocity the old velocity plus 2 times the returned vector `newVel`; otherwise
position and velocity are unchanged.  In both cases density, pressure, the two
force accumulators and the neighbor array are unchanged. -/
theorem checkBoxIntersection_spec (Intersect : Vec3 K → Vec3 K × Vec3 K × Bool)
    (s : SPHSolver K) (particle : Nat) (hnd : s.m_particles.Nodup)
    (hmem : particle ∈ s.m_particles) :
    let p := s.heap particle
    let q := (CheckBoxIntersection Intersect s).heap particle
    ((Intersect p.position).2.2 = true →
        q.position = (Intersect p.position).1
          ∧ q.velocity = p.velocity + Vec3.smul 2 (Intersect p.position).2.1)
      ∧ ((Intersect p.position).2.2 = false →
        q.position = p.position ∧ q.velocity = p.velocity)
      ∧ q.density = p.density ∧ q.pressure = p.pressure
      ∧ q.pressureForce = p.pressureForce ∧ q.viscosityForce = p.viscosityForce
      ∧ q.neighbors = p.neighbors ∧ q.neighborsCount = p.neighborsCount := by
  intro p q
  have hq : q = if (Intersect p.position).2.2 then
      { p with
        position := (Intersect p.position).1
        velocity := p.velocity + Vec3.smul 2 (Intersect p.position).2.1 }
      else p := by
    simp only [q, p, CheckBoxIntersection]
    rw [checkBox_foldl_mem Intersect _ s particle hnd hmem, checkBoxParticle_heap_self]
  rw [hq]
  cases hI : (Intersect p.position).2.2 with
  | true => simp
  | false => simp

/-- Instance of `checkBoxIntersection_spec` in `unitContainer` with a box that
reports an intersection everywhere, returning the origin and the vector
`(1, 0, 0)`: the particle with velocity `(-5, 0, 3)` is put at the origin with
velocity `(-5, 0, 3) + 2 (1, 0, 0)`. -/
theorem checkBoxIntersection_spec_witness :
    ((CheckBoxIntersection (fun _ => (⟨0, 0, 0⟩, ⟨1, 0, 0⟩, true)) unitContainer).heap
        0).position = ⟨0, 0, 0⟩
      ∧ ((CheckBoxIntersection (fun _ => (⟨0, 0, 0⟩, ⟨1, 0, 0⟩, true)) unitContainer).heap
        0).velocity = (unitContainer.heap 0).velocity + Vec3.smul 2 ⟨1, 0, 0⟩ :=
  (checkBoxIntersection_spec (fun _ => (⟨0, 0, 0⟩, ⟨1, 0, 0⟩, true)) unitContainer 0
    (by simp [unitContainer]) (by simp [unitContainer])).1 rfl

end SolverClaims

/-- C16: `SetConstant(type, value)` sets the tunable that `type` names to `value` and
leaves the other three tunables, the smoothing radius, every particle and the
remaining members of the solver unchanged. -/
theorem setConstant_spec {K : Type} (s : SPHSolver K) (type : SPHConstantType) (value : K) :
    (SetConstant s type value).constant type = value
      ∧ (∀ other, other ≠ type → (SetConstant s type value).constant other = s.constant other)
      ∧ (SetConstant s type value).m_kernelRadius = s.m_kernelRadius
      ∧ (SetConstant s type value).heap = s.heap
      ∧ (SetConstant s type value).m_particles = s.m_particles
      ∧ (SetConstant s type value).m_minBoundary = s.m_minBoundary
      ∧ (SetConstant s type value).m_maxBoundary = s.m_maxBoundary
      ∧ (SetConstant s type value).m_containerDim = s.m_containerDim
      ∧ (SetConstant s type value).m_grid = s.m_grid := by
  cases type <;>
    refine ⟨rfl, fun other ho => ?_, rfl, rfl, rfl, rfl, rfl, rfl, rfl⟩ <;>
    cases other <;> first | rfl | exact absurd rfl ho

/-- Instance of `setConstant_spec`: setting the viscosity of `unitContainer` to 7
leaves its stiffness. -/
theorem setConstant_spec_witness :
    (SetConstant unitContainer .SPHViscosity 7).constant .SPHStiffness
      = unitContainer.constant .SPHStiffness :=
  (setConstant_spec unitContainer .SPHViscosity 7).2.1 .SPHStiffness (by decide)

end SPH
